import Mathlib

/-!
# cxxtools `tcpstream.cpp`: socket, duplex stream and stream adapter

A shallow embedding of `src/cxxtools/src/tcpstream.cpp`.

* The operating system is an oracle (`Os`): it answers every system call from
  the history of calls made so far.  Each call and its answer are appended to
  the `trace` of the `World`, so "how many OS reads were made" is a statement
  about the trace.
* C++ exceptions are the `throw` outcome of `Outcome`; an operation returns its
  outcome together with the object state and the world it leaves behind.
* Machine integers are `Int` with explicit wrap-around (`wrapUnsigned`,
  `wrapSigned`) at every conversion the source performs.
* `Stream::size_type` is declared in `cxxtools/tcpstream.h`, which is not among
  the sources; its signedness is the field `size_type_signed` of `Abi`.
-/

namespace cxxtools
namespace tcp

/-! ## Machine integers -/

/-- Conversion to an unsigned integer type of the given width. -/
def wrapUnsigned (bits : Nat) (x : Int) : Int :=
  x % 2 ^ bits

/-- Conversion to a signed two-complement integer type of the given width. -/
def wrapSigned (bits : Nat) (x : Int) : Int :=
  (x + 2 ^ (bits - 1)) % 2 ^ bits - 2 ^ (bits - 1)

/-- Width of `int`. -/
def int_bits : Nat := 32

/-- Integer model of the target: the width of `size_t` and `ssize_t`, and the
signedness of the typedef `Stream::size_type` (declared in the header
`cxxtools/tcpstream.h`). -/
structure Abi where
  size_bits : Nat
  size_type_signed : Bool
  deriving DecidableEq, Repr

/-- Conversion of a value to `Stream::size_type`. -/
def toSizeType (abi : Abi) (x : Int) : Int :=
  if abi.size_type_signed then wrapSigned abi.size_bits x else wrapUnsigned abi.size_bits x

/-- The usual 64-bit target with `typedef size_t size_type`. -/
def lp64 : Abi := { size_bits := 64, size_type_signed := false }

/-- A byte (`char`) as its bit pattern. -/
abbrev Byte := Fin 256

/-- Value of `EAGAIN` in `<errno.h>` (Linux). -/
def EAGAIN : Int := 11

/-- Value of `EPIPE` in `<errno.h>` (Linux). -/
def EPIPE : Int := 32

/-- Value of `O_NONBLOCK` in `<fcntl.h>` (Linux). -/
def O_NONBLOCK : Int := 2048

/-- Value of `POLLIN` in `<sys/poll.h>`. -/
def POLLIN : Int := 1

/-- The system and resolver calls issued by `tcpstream.cpp`, with their
arguments.  `gethostbyname` answers 0 for the null pointer and delivers the
host address as `data` otherwise. -/
inductive Syscall where
  | read (fd : Int) (bufsize : Nat)
  | write (fd : Int) (bytes : List Byte)
  | poll (fd : Int) (events : Int) (timeout : Int)
  | close (fd : Int)
  | socket (domain type protocol : Int)
  | fcntl_setfl (fd : Int) (flags : Int)
  | fcntl_getfl (fd : Int)
  | gethostbyname (name : String)
  | setsockopt_reuseaddr (fd : Int) (value : Int)
  | bind (fd : Int) (addr : List Byte) (port : Nat)
  | listen (fd : Int) (backlog : Int)
  | accept (fd : Int)
  | connect (fd : Int) (addr : List Byte) (port : Nat)
  deriving DecidableEq, Repr

/-- Answer of the OS to a system call: the return value, the value `errno`
takes if the call failed, and for `read` the bytes delivered. -/
structure Reply where
  ret : Int
  errno : Int
  data : List Byte
  deriving DecidableEq, Repr

/-- One entry of the trace: a call and its answer. -/
structure Event where
  call : Syscall
  reply : Reply
  deriving DecidableEq, Repr

/-- The OS (and libc): an arbitrary answer to every call given the history. -/
structure Os where
  respond : List Event → Syscall → Reply
  strerror : Int → String

/-- The part of the world the program shares with the OS. -/
structure World where
  trace : List Event
  errno : Int
  deriving DecidableEq, Repr

/-- Issue a system call: the answer is recorded, `errno` is set on failure. -/
def syscall (os : Os) (c : Syscall) (w : World) : Reply × World :=
  let r := os.respond w.trace c
  (r, { trace := w.trace ++ [{ call := c, reply := r }],
        errno := if r.ret < 0 then r.errno else w.errno })

/-! ## Exceptions -/

/-- What the code throws: `tcp::Exception` (a `std::runtime_error` with the
errno it was built from) or `tcp::Timeout`. -/
inductive Thrown where
  | Exception (m_Errno : Int) (what : String)
  | Timeout
  deriving DecidableEq, Repr

/-- `Exception::Exception(const string& msg)`. -/
def Exception (os : Os) (w : World) (msg : String) : Thrown :=
  .Exception w.errno (msg ++ ": " ++ os.strerror w.errno)

/-- Result of a call that may throw. -/
inductive Outcome (α : Type) where
  | ret (a : α)
  | throw (e : Thrown)
  deriving DecidableEq, Repr

/-- Whether the outcome is a `tcp::Exception`. -/
def Outcome.isException {α : Type} : Outcome α → Bool
  | .throw (.Exception _ _) => true
  | _ => false

/-- Whether the outcome is a `tcp::Timeout`. -/
def Outcome.isTimeout {α : Type} : Outcome α → Bool
  | .throw .Timeout => true
  | _ => false

/-- Class `Socket`: the owned descriptor. -/
structure Socket where
  m_sockFd : Int
  deriving DecidableEq, Repr

/-- Class `Stream : public Socket`, with its read timeout. -/
structure Stream extends Socket where
  timeout : Int
  deriving DecidableEq, Repr

/-- `Stream::Write`. -/
def Stream.Write (abi : Abi) (os : Os) (s : Stream) (buffer : List Byte) (bufsize : Nat)
    (w : World) : Outcome Int × World :=
  let (r, w1) := syscall os (.write s.m_sockFd (buffer.take bufsize)) w
  -- size_t n = ::write(getFd(), buffer, bufsize);
  let n := wrapUnsigned abi.size_bits r.ret
  if n ≤ 0 then
    (.throw (Exception os w1 "tcp::Stream: error in write"), w1)
  else
    (.ret (toSizeType abi n), w1)

/-- What an OS `read` leaves in the caller's buffer: the delivered bytes, at
most `bufsize` of them, from the start of the buffer. -/
def deposit (buffer : List Byte) (bufsize : Nat) (r : Reply) : List Byte :=
  r.data.take bufsize ++ buffer.drop (r.data.take bufsize).length

/-- `Stream::Read`.  The function is `const`: the stream is unchanged; the
result carries the caller's buffer after the call. -/
def Stream.Read (abi : Abi) (os : Os) (s : Stream) (buffer : List Byte) (bufsize : Nat)
    (w : World) : Outcome Int × List Byte × World :=
  if s.timeout < 0 then
    -- blocking read
    let (r, w1) := syscall os (.read s.m_sockFd bufsize) w
    let buffer1 := deposit buffer bufsize r
    -- size_type n = ::read(getFd(), buffer, bufsize);
    let n := toSizeType abi r.ret
    if n < 0 then
      (.throw (Exception os w1 (os.strerror w1.errno)), buffer1, w1)
    else
      (.ret n, buffer1, w1)
  else
    -- non-blocking read; ssize_t n;
    let (r, w1) := syscall os (.read s.m_sockFd bufsize) w
    let buffer1 := deposit buffer bufsize r
    let n := r.ret
    if n < 0 then
      if w1.errno = EAGAIN then
        if s.timeout = 0 then
          (.throw .Timeout, buffer1, w1)
        else
          let (p, w2) := syscall os (.poll s.m_sockFd POLLIN s.timeout) w1
          if p.ret < 0 then
            (.throw (Exception os w2 (os.strerror w2.errno)), buffer1, w2)
          else if p.ret = 0 then
            (.throw .Timeout, buffer1, w2)
          else
            let (r2, w3) := syscall os (.read s.m_sockFd bufsize) w2
            (.ret (toSizeType abi r2.ret), deposit buffer1 bufsize r2, w3)
      else
        (.throw (Exception os w1 (os.strerror w1.errno)), buffer1, w1)
    else
      (.ret (toSizeType abi n), buffer1, w1)

/-- `Socket::close`. -/
def Socket.close (os : Os) (s : Socket) (w : World) : Outcome Unit × Socket × World :=
  if 0 ≤ s.m_sockFd then
    let (_, w1) := syscall os (.close s.m_sockFd) w
    (.ret (), { m_sockFd := -1 }, w1)
  else
    (.ret (), s, w)

/-- `Socket::create`. -/
def Socket.create (os : Os) (s : Socket) (domain type protocol : Int) (w : World) :
    Outcome Unit × Socket × World :=
  match Socket.close os s w with
  | (.throw e, s1, w1) => (.throw e, s1, w1)
  | (.ret _, _, w1) =>
    let (r, w2) := syscall os (.socket domain type protocol) w1
    let s2 : Socket := { m_sockFd := r.ret }
    if s2.m_sockFd < 0 then
      (.throw (Exception os w2 "cannot create socket"), s2, w2)
    else
      (.ret (), s2, w2)

/-- `Stream::setTimeout`. -/
def Stream.setTimeout (os : Os) (s : Stream) (t : Int) (w : World) :
    Outcome Unit × Stream × World :=
  let s1 : Stream := { s with timeout := t }
  if 0 ≤ s1.m_sockFd then
    let a : Int := if 0 ≤ s1.timeout then O_NONBLOCK else 0
    let (_, w1) := syscall os (.fcntl_setfl s1.m_sockFd a) w
    (.ret (), s1, w1)
  else
    (.ret (), s1, w)

/-- Whether a flag word passed to `F_SETFL` has the `O_NONBLOCK` bit set. -/
def flagsNonBlocking (flags : Int) : Bool :=
  decide (flags / O_NONBLOCK % 2 = 1)

/-- Repeat `Socket::close` on the same socket, `k` times in a row. -/
def closeTimes (os : Os) : Nat → Socket → World → Socket × World
  | 0, s, w => (s, w)
  | k + 1, s, w => closeTimes os k (Socket.close os s w).2.1 (Socket.close os s w).2.2

/-- Number of OS `close` calls on descriptor `fd` in a trace. -/
def closeCount (fd : Int) : List Event → Nat
  | [] => 0
  | e :: es => (if e.call = .close fd then 1 else 0) + closeCount fd es

/-- Number of OS `read` calls in a trace. -/
def readCount : List Event → Nat
  | [] => 0
  | e :: es => (match e.call with | .read _ _ => 1 | _ => 0) + readCount es

/-- Number of OS `poll` calls in a trace. -/
def pollCount : List Event → Nat
  | [] => 0
  | e :: es => (match e.call with | .poll _ _ _ => 1 | _ => 0) + pollCount es

/-! ## The stream adapter `tcp::streambuf` -/

/-- `traits_type::eof()`. -/
def eof : Int := -1

/-- The conversion `(char_type)c` of an `int_type`. -/
def toChar (c : Int) : Byte :=
  ⟨(c % 256).toNat, by omega⟩

/-- Class `streambuf`.  The adapter has ONE buffer of `m_bufsize` characters:
`m_buffer` is its contents and `m_buffer_addr` the address the pointer member
holds.  The put area (`pbase`, `pptr`, `epptr`) and the get area (`eback`,
`gptr`, `egptr`) of `std::streambuf` are offsets from that address.  The null
pointers a `std::streambuf` starts with are the empty area at offset 0: the
code only compares and subtracts pointers of the same area.  `egptr` is set to
`m_buffer + n` for a number `n` the code does not bound, so it is an integer:
it is negative when that pointer lies below the buffer. -/
structure streambuf where
  m_stream : Stream
  m_bufsize : Nat
  m_buffer : List Byte
  m_buffer_addr : Nat
  pbase : Nat
  pptr : Nat
  epptr : Nat
  eback : Nat
  gptr : Nat
  egptr : Int
  deriving DecidableEq, Repr

/-- `std::streambuf::setp(pbeg, pend)`. -/
def streambuf.setp (sb : streambuf) (pbeg pend : Nat) : streambuf :=
  { sb with pbase := pbeg, pptr := pbeg, epptr := pend }

/-- The pending output: the characters from `pbase()` up to `pptr()`. -/
def streambuf.pending (sb : streambuf) : List Byte :=
  (sb.m_buffer.drop sb.pbase).take (sb.pptr - sb.pbase)

/-- The second half of `streambuf::overflow`: reset the put area to the whole
buffer and stage `c` unless it is `eof`.  The store `*pptr() = c` lies inside
the buffer when `m_bufsize` is at least 1. -/
def streambuf.overflow_stage (sb : streambuf) (c : Int) : Outcome Int × streambuf :=
  let sb1 := sb.setp 0 sb.m_bufsize
  if c ≠ eof then
    -- *pptr() = (char_type)c; pbump(1);
    (.ret 0, { sb1 with m_buffer := sb1.m_buffer.set sb1.pptr (toChar c), pptr := sb1.pptr + 1 })
  else
    (.ret 0, sb1)

/-- `streambuf::overflow`. -/
def streambuf.overflow (abi : Abi) (os : Os) (sb : streambuf) (c : Int) (w : World) :
    Outcome Int × streambuf × World :=
  if sb.pptr ≠ sb.pbase then
    match Stream.Write abi os sb.m_stream (sb.m_buffer.drop sb.pbase) (sb.pptr - sb.pbase) w with
    | (.throw e, w1) => (.throw e, sb, w1)
    | (.ret v, w1) =>
      -- int n = m_stream.Write(pbase(), pptr() - pbase());
      let n := wrapSigned int_bits v
      if n ≤ 0 then
        (.ret eof, sb, w1)
      else
        ((sb.overflow_stage c).1, (sb.overflow_stage c).2, w1)
  else
    ((sb.overflow_stage c).1, (sb.overflow_stage c).2, w)

/-- `streambuf::sync`. -/
def streambuf.sync (abi : Abi) (os : Os) (sb : streambuf) (w : World) :
    Outcome Int × streambuf × World :=
  if sb.pptr ≠ sb.pbase then
    match Stream.Write abi os sb.m_stream (sb.m_buffer.drop sb.pbase) (sb.pptr - sb.pbase) w with
    | (.throw e, w1) => (.throw e, sb, w1)
    | (.ret v, w1) =>
      let n := wrapSigned int_bits v
      if n ≤ 0 then
        (.ret (-1), sb, w1)
      else
        (.ret 0, sb.setp 0 sb.m_bufsize, w1)
  else
    (.ret 0, sb, w)

/-- `std::streambuf::sputc` of the C++ library: store the character when the
put area has room, call `overflow` otherwise. -/
def streambuf.sputc (abi : Abi) (os : Os) (sb : streambuf) (c : Byte) (w : World) :
    Outcome Int × streambuf × World :=
  if sb.pptr < sb.epptr then
    (.ret (c.val : Int),
      { sb with m_buffer := sb.m_buffer.set sb.pptr c, pptr := sb.pptr + 1 }, w)
  else
    sb.overflow abi os (c.val : Int) w

/-- Put a sequence of bytes, one `sputc` each, stopping at the first one that
reports `eof` or throws.  The result is `0` when every byte was put. -/
def streambuf.putBytes (abi : Abi) (os : Os) :
    streambuf → List Byte → World → Outcome Int × streambuf × World
  | sb, [], w => (.ret 0, sb, w)
  | sb, c :: cs, w =>
    match sb.sputc abi os c w with
    | (.throw e, sb1, w1) => (.throw e, sb1, w1)
    | (.ret v, sb1, w1) =>
      if v = eof then (.ret eof, sb1, w1) else streambuf.putBytes abi os sb1 cs w1

/-- Put a sequence of bytes and then flush with `sync`. -/
def streambuf.putThenSync (abi : Abi) (os : Os) (sb : streambuf) (bytes : List Byte)
    (w : World) : Outcome Int × streambuf × World :=
  match sb.putBytes abi os bytes w with
  | (.throw e, sb1, w1) => (.throw e, sb1, w1)
  | (.ret v, sb1, w1) =>
    if v = eof then (.ret eof, sb1, w1) else sb1.sync abi os w1

/-- The bytes the transport accepted in one event: the first `ret` bytes of a
`write`. -/
def Event.accepted (e : Event) : List Byte :=
  match e.call with
  | .write _ bytes => bytes.take e.reply.ret.toNat
  | _ => []

/-- The bytes the transport accepted over a trace, in order. -/
def accepted : List Event → List Byte
  | [] => []
  | e :: es => e.accepted ++ accepted es

/-- The adapter's buffer and put area are consistent. -/
def streambuf.WF (sb : streambuf) : Prop :=
  sb.m_buffer.length = sb.m_bufsize ∧ 1 ≤ sb.m_bufsize ∧ sb.m_bufsize < 2 ^ 31 ∧
    sb.pbase ≤ sb.pptr ∧ sb.pptr ≤ sb.epptr ∧ sb.epptr ≤ sb.m_bufsize

instance (sb : streambuf) : Decidable sb.WF := by
  unfold streambuf.WF; exact inferInstance

/-- The OS accepts every byte it is offered: each nonempty `write` returns the
number of bytes offered. -/
def Os.writesAll (os : Os) : Prop :=
  ∀ (hist : List Event) (fd : Int) (bytes : List Byte),
    bytes ≠ [] → (os.respond hist (.write fd bytes)).ret = bytes.length

/-- No OS write reports failure: each nonempty `write` returns a positive
count, at most the number of bytes offered. -/
def Os.writesSome (os : Os) : Prop :=
  ∀ (hist : List Event) (fd : Int) (bytes : List Byte),
    bytes ≠ [] → 0 < (os.respond hist (.write fd bytes)).ret ∧
      (os.respond hist (.write fd bytes)).ret ≤ bytes.length

/-! ## The get side of the adapter -/

/-- The pointer `m_buffer + n`, as an offset from `m_buffer`, in the flat
address space of `size_bits` bits: the addition wraps around. -/
def ptrOffset (abi : Abi) (addr : Nat) (n : Int) : Int :=
  ((addr : Int) + n) % 2 ^ abi.size_bits - addr

/-- The get area: the characters from `eback()` up to `egptr()`.  It is empty
when `egptr()` is not above `eback()`, and it is not a part of the buffer
(`none`) when `egptr()` lies beyond the buffer's end. -/
def streambuf.getArea (sb : streambuf) : Option (List Byte) :=
  if sb.egptr ≤ sb.eback then
    some []
  else if sb.egptr ≤ sb.m_buffer.length then
    some ((sb.m_buffer.drop sb.eback).take (sb.egptr - sb.eback).toNat)
  else
    none

/-- `streambuf::underflow`.  `Stream::Read` is given `m_buffer` itself, so what
the OS delivered is in the buffer also when the read throws. -/
def streambuf.underflow (abi : Abi) (os : Os) (sb : streambuf) (w : World) :
    Outcome Int × streambuf × World :=
  match Stream.Read abi os sb.m_stream sb.m_buffer sb.m_bufsize w with
  | (.throw e, buffer1, w1) => (.throw e, { sb with m_buffer := buffer1 }, w1)
  | (.ret n, buffer1, w1) =>
    if n ≤ 0 then
      (.ret eof, { sb with m_buffer := buffer1 }, w1)
    else
      -- setg(m_buffer, m_buffer, m_buffer + n); return (int_type)(unsigned char)m_buffer[0];
      (.ret ((buffer1.getD 0 0).val : Int),
        { sb with m_buffer := buffer1, eback := 0, gptr := 0,
                  egptr := ptrOffset abi sb.m_buffer_addr n }, w1)

/-! ## The scoped flag saver -/

/-- Class `Socket::saveflags`. -/
structure Socket.saveflags where
  fd : Int
  flags : Int
  deriving DecidableEq, Repr

/-- The constructor `Socket::saveflags::saveflags(int _fd)`; when it throws, no
object exists. -/
def Socket.saveflags.construct (os : Os) (_fd : Int) (w : World) :
    Outcome Socket.saveflags × World :=
  let (r, w1) := syscall os (.fcntl_getfl _fd) w
  let flags := r.ret
  if flags < 0 then
    (.throw (Exception os w1 (os.strerror w1.errno)), w1)
  else
    (.ret { fd := _fd, flags := flags }, w1)

/-- The destructor `Socket::saveflags::~saveflags()`. -/
def Socket.saveflags.destruct (os : Os) (sv : Socket.saveflags) (w : World) : World :=
  if 0 ≤ sv.flags then
    (syscall os (.fcntl_setfl sv.fd sv.flags) w).2
  else
    w

/-- A scope holding a `saveflags` object: the object is constructed, the body
runs, and the destructor runs when the scope is left, by a return or by an
exception of the body alike.  When the constructor throws, nothing else runs. -/
def Socket.saveflags.inScope {α : Type} (os : Os) (fd : Int)
    (body : World → Outcome α × World) (w : World) : Outcome α × World :=
  match Socket.saveflags.construct os fd w with
  | (.throw e, w1) => (.throw e, w1)
  | (.ret sv, w1) => ((body w1).1, Socket.saveflags.destruct os sv (body w1).2)

/-- Kernel view of the file status flags of descriptor `fd` after a trace,
from the flags before it: every `F_SETFL` on `fd` that succeeded replaces them. -/
def flagsAfter (fd : Int) (flags0 : Int) : List Event → Int
  | [] => flags0
  | e :: es =>
    flagsAfter fd
      (match e.call with
        | .fcntl_setfl fd1 a => if fd1 = fd ∧ 0 ≤ e.reply.ret then a else flags0
        | _ => flags0) es

/-! ## Server::Listen, Stream::Accept, Stream::Connect -/

/-- Value of `AF_INET` in `<sys/socket.h>`. -/
def AF_INET : Int := 2

/-- Value of `SOCK_STREAM` in `<sys/socket.h>` (Linux). -/
def SOCK_STREAM : Int := 1

/-- Modelled from the spec: `Socket::bad()` is declared in
`cxxtools/tcpstream.h`; the socket holds -1 when closed, and a descriptor is
invalid when it is negative. -/
def Socket.bad (s : Socket) : Bool :=
  decide (s.m_sockFd < 0)

/-- `Server::Listen(const char* ipaddr, unsigned short port, int backlog)`, on
the descriptor of the server socket.  The address structure `servaddr` it fills
is what it passes to `bind`. -/
def Server.Listen (os : Os) (srv : Socket) (ipaddr : String) (port : Nat) (backlog : Int)
    (w : World) : Outcome Unit × World :=
  let (host, w1) := syscall os (.gethostbyname ipaddr) w
  if host.ret = 0 then
    (.throw (Exception os w1 ("invalid ipaddress " ++ ipaddr)), w1)
  else
    -- int reuseAddr = 1;
    let (o, w2) := syscall os (.setsockopt_reuseaddr srv.m_sockFd 1) w1
    if o.ret < 0 then
      (.throw (Exception os w2 "error in setsockopt"), w2)
    else
      let (b, w3) := syscall os (.bind srv.m_sockFd host.data port) w2
      if b.ret < 0 then
        (.throw (Exception os w3 "error in bind"), w3)
      else
        let (l, w4) := syscall os (.listen srv.m_sockFd backlog) w3
        if l.ret < 0 then
          (.throw (Exception os w4 "error in listen"), w4)
        else
          (.ret (), w4)

/-- `Stream::Accept(const Server& server)`.  The peer address the OS fills in
is not part of the state. -/
def Stream.Accept (os : Os) (s : Stream) (server : Socket) (w : World) :
    Outcome Unit × Stream × World :=
  match Socket.close os s.toSocket w with
  | (.throw e, s1, w1) => (.throw e, { s with toSocket := s1 }, w1)
  | (.ret _, _, w1) =>
    let (r, w2) := syscall os (.accept server.m_sockFd) w1
    -- setFd(accept(...));
    let s2 : Stream := { s with m_sockFd := r.ret }
    if s2.toSocket.bad then
      (.throw (Exception os w2 "error in accept"), s2, w2)
    else
      Stream.setTimeout os s2 s2.timeout w2

/-- The part of `Stream::Connect` after the socket exists: resolve, connect,
apply the timeout. -/
def Stream.Connect_resolved (os : Os) (s : Stream) (ipaddr : String) (port : Nat) (w : World) :
    Outcome Unit × Stream × World :=
  let (host, w1) := syscall os (.gethostbyname ipaddr) w
  if host.ret = 0 then
    (.throw (Exception os w1 ("invalid ipaddress " ++ ipaddr)), s, w1)
  else
    let (c, w2) := syscall os (.connect s.m_sockFd host.data port) w1
    if c.ret < 0 then
      (.throw (Exception os w2 "error in connect"), s, w2)
    else
      Stream.setTimeout os s s.timeout w2

/-- `Stream::Connect(const char* ipaddr, unsigned short port)`. -/
def Stream.Connect (os : Os) (s : Stream) (ipaddr : String) (port : Nat) (w : World) :
    Outcome Unit × Stream × World :=
  if s.m_sockFd < 0 then
    match Socket.create os s.toSocket AF_INET SOCK_STREAM 0 w with
    | (.throw e, s1, w1) => (.throw e, { s with toSocket := s1 }, w1)
    | (.ret _, s1, w1) => Stream.Connect_resolved os { s with toSocket := s1 } ipaddr port w1
  else
    Stream.Connect_resolved os s ipaddr port w

/-- The calls of a trace, in order, without their answers. -/
def calls (trace : List Event) : List Syscall :=
  trace.map Event.call

/-- Number of OS `socket` calls in a trace. -/
def socketCount : List Event → Nat
  | [] => 0
  | e :: es => (match e.call with | .socket _ _ _ => 1 | _ => 0) + socketCount es

/-! ## Sample operating systems and states -/

/-- An OS that answers every call with the same reply. -/
def constOs (r : Reply) : Os :=
  { respond := fun _ _ => r, strerror := fun _ => "error" }

/-- An OS that accepts every byte of a write and answers 0 to everything else. -/
def fullOs : Os :=
  { respond := fun _ c =>
      match c with
      | .write _ bytes => { ret := bytes.length, errno := 0, data := [] }
      | _ => { ret := 0, errno := 0, data := [] },
    strerror := fun _ => "error" }

/-- An OS answering by the position of the call in the run: the `k`-th call
gets the `k`-th reply of the script, and calls past its end get `dflt`. -/
def scriptOs (script : List Reply) (dflt : Reply) : Os :=
  { respond := fun hist _ => script.getD hist.length dflt, strerror := fun _ => "error" }

/-- The world before any call. -/
def World.init : World := { trace := [], errno := 0 }

/-- An adapter over `stream` with a zero-filled buffer of `bufsize` characters
at address 4096 and nothing put or read yet. -/
def streambuf.fresh (stream : Stream) (bufsize : Nat) : streambuf :=
  { m_stream := stream, m_bufsize := bufsize, m_buffer := List.replicate bufsize 0,
    m_buffer_addr := 4096,
    pbase := 0, pptr := 0, epptr := 0, eback := 0, gptr := 0, egptr := 0 }

/-- An adapter over descriptor 3 with a buffer of four characters in which the
two bytes 104, 105 have been put and not yet flushed. -/
def streambuf.pendingHi : streambuf :=
  { m_stream := { m_sockFd := 3, timeout := -1 }, m_bufsize := 4, m_buffer := [104, 105, 0, 0],
    m_buffer_addr := 4096,
    pbase := 0, pptr := 2, epptr := 4, eback := 0, gptr := 0, egptr := 0 }

/-! ## Auxiliary lemmas -/

theorem wrapUnsigned_nonneg (bits : Nat) (x : Int) : 0 ≤ wrapUnsigned bits x := by
  unfold wrapUnsigned
  exact Int.emod_nonneg _ (by positivity)

theorem wrapUnsigned_of_range (bits : Nat) (x : Int) (h0 : 0 ≤ x) (h1 : x < 2 ^ bits) :
    wrapUnsigned bits x = x := by
  unfold wrapUnsigned
  exact Int.emod_eq_of_lt h0 h1

theorem wrapUnsigned_of_neg (bits : Nat) (x : Int) (h0 : x < 0) (h1 : -(2 ^ bits) < x) :
    wrapUnsigned bits x = x + 2 ^ bits := by
  unfold wrapUnsigned
  have h : (x + 2 ^ bits) % 2 ^ bits = x + 2 ^ bits :=
    Int.emod_eq_of_lt (by linarith) (by linarith)
  rw [← h, Int.add_emod_self]

theorem two_pow_pred_le (bits : Nat) : (2 : Int) ^ (bits - 1) ≤ 2 ^ bits :=
  pow_le_pow_right₀ (by norm_num) (Nat.sub_le bits 1)

theorem two_pow_pred_double (bits : Nat) (h : 1 ≤ bits) :
    (2 : Int) ^ bits = 2 ^ (bits - 1) + 2 ^ (bits - 1) := by
  obtain ⟨k, rfl⟩ : ∃ k, bits = k + 1 := ⟨bits - 1, by omega⟩
  simp [pow_succ]
  ring

theorem wrapSigned_of_range (bits : Nat) (x : Int) (hb : 1 ≤ bits)
    (h0 : -(2 ^ (bits - 1)) ≤ x) (h1 : x < 2 ^ (bits - 1)) : wrapSigned bits x = x := by
  unfold wrapSigned
  have hd := two_pow_pred_double bits hb
  have h : (x + 2 ^ (bits - 1)) % 2 ^ bits = x + 2 ^ (bits - 1) :=
    Int.emod_eq_of_lt (by linarith) (by linarith)
  rw [h]
  ring

theorem toSizeType_of_range (abi : Abi) (x : Int) (hb : 1 ≤ abi.size_bits)
    (h0 : 0 ≤ x) (h1 : x < 2 ^ (abi.size_bits - 1)) : toSizeType abi x = x := by
  unfold toSizeType
  have hp : (0 : Int) < 2 ^ (abi.size_bits - 1) := by positivity
  split
  · exact wrapSigned_of_range _ _ hb (by linarith) h1
  · exact wrapUnsigned_of_range _ _ h0 (lt_of_lt_of_le h1 (two_pow_pred_le _))

theorem readCount_append (xs ys : List Event) :
    readCount (xs ++ ys) = readCount xs + readCount ys := by
  induction xs with
  | nil => simp [readCount]
  | cons e es ih => simp [readCount, ih]; omega

theorem pollCount_append (xs ys : List Event) :
    pollCount (xs ++ ys) = pollCount xs + pollCount ys := by
  induction xs with
  | nil => simp [pollCount]
  | cons e es ih => simp [pollCount, ih]; omega

theorem closeCount_append (fd : Int) (xs ys : List Event) :
    closeCount fd (xs ++ ys) = closeCount fd xs + closeCount fd ys := by
  induction xs with
  | nil => simp [closeCount]
  | cons e es ih => simp [closeCount, ih]; omega

/-! ## Stream::Write -/

/-- When the OS write returns 0, `Stream::Write` makes that one OS write and
throws the exception whose message starts "tcp::Stream: error in write". -/
theorem Stream.Write_zero_throws (abi : Abi) (os : Os) (s : Stream) (buffer : List Byte)
    (bufsize : Nat) (w : World)
    (h0 : (os.respond w.trace (.write s.m_sockFd (buffer.take bufsize))).ret = 0) :
    (Stream.Write abi os s buffer bufsize w).1
        = .throw (.Exception w.errno
            ("tcp::Stream: error in write" ++ ": " ++ os.strerror w.errno)) ∧
      (Stream.Write abi os s buffer bufsize w).2.trace
        = w.trace ++ [{ call := .write s.m_sockFd (buffer.take bufsize),
                        reply := os.respond w.trace (.write s.m_sockFd (buffer.take bufsize)) }] := by
  simp [Stream.Write, syscall, h0, wrapUnsigned, Exception]

/-- C1 (the code departs from it): when the OS write reports an error by a
negative result `r` (such as -1), `Stream::Write` still makes its single OS
write but throws nothing: `r` is stored in a `size_t`, where it is the positive
number `r + 2 ^ size_bits`, so the test `n <= 0` is false and that number,
converted to `size_type`, is returned to the caller as the byte count. -/
theorem Stream.Write_negative_result_returned (abi : Abi) (os : Os) (s : Stream)
    (buffer : List Byte) (bufsize : Nat) (w : World)
    (hneg : (os.respond w.trace (.write s.m_sockFd (buffer.take bufsize))).ret < 0)
    (hrange : -(2 ^ abi.size_bits)
      < (os.respond w.trace (.write s.m_sockFd (buffer.take bufsize))).ret) :
    (Stream.Write abi os s buffer bufsize w).1
        = .ret (toSizeType abi
            ((os.respond w.trace (.write s.m_sockFd (buffer.take bufsize))).ret
              + 2 ^ abi.size_bits)) ∧
      (Stream.Write abi os s buffer bufsize w).2.trace
        = w.trace ++ [{ call := .write s.m_sockFd (buffer.take bufsize),
                        reply := os.respond w.trace (.write s.m_sockFd (buffer.take bufsize)) }] := by
  have hw := wrapUnsigned_of_neg _ _ hneg hrange
  have hpos : ¬ (os.respond w.trace (.write s.m_sockFd (buffer.take bufsize))).ret
      + 2 ^ abi.size_bits ≤ 0 := by
    linarith
  simp [Stream.Write, syscall, hpos, hw]

/-- C1, at a concrete input: the peer has closed the connection and the OS
write answers -1 with `EPIPE`; on the 64-bit target `Stream::Write` returns
2^64 - 1 to its caller. -/
theorem Stream.Write_negative_result_returned_witness :
    (Stream.Write lp64 (constOs { ret := -1, errno := EPIPE, data := [] })
        { m_sockFd := 3, timeout := -1 } [104, 105] 2 World.init).1
      = .ret 18446744073709551615 := by
  have h := (Stream.Write_negative_result_returned lp64
    (constOs { ret := -1, errno := EPIPE, data := [] })
    { m_sockFd := 3, timeout := -1 } [104, 105] 2 World.init (by decide) (by decide)).1
  rw [h]
  decide

/-! ## Stream::Read, blocking mode -/

/-- With a signed `size_type` the blocking branch does throw on an OS error:
this is what the test `n < 0` in the source is written for. -/
theorem Stream.Read_blocking_error_throws_if_signed (abi : Abi) (os : Os) (s : Stream)
    (buffer : List Byte) (bufsize : Nat) (w : World)
    (hsigned : abi.size_type_signed = true) (hbits : 1 ≤ abi.size_bits)
    (ht : s.timeout < 0)
    (hneg : (os.respond w.trace (.read s.m_sockFd bufsize)).ret < 0)
    (hrange : -(2 ^ (abi.size_bits - 1)) ≤ (os.respond w.trace (.read s.m_sockFd bufsize)).ret) :
    (Stream.Read abi os s buffer bufsize w).1.isException = true := by
  have hp : (0 : Int) < 2 ^ (abi.size_bits - 1) := by positivity
  have hc : toSizeType abi (os.respond w.trace (.read s.m_sockFd bufsize)).ret
      = (os.respond w.trace (.read s.m_sockFd bufsize)).ret := by
    unfold toSizeType
    rw [if_pos hsigned]
    exact wrapSigned_of_range _ _ hbits hrange (by linarith)
  simp [Stream.Read, syscall, ht, hc, hneg, Exception, Outcome.isException]

/-- C3 (the code departs from it): with `size_type` an unsigned type (the
`size_t` of `Stream::Write`), a blocking `Stream::Read` (timeout < 0) makes
exactly one OS read and returns its result converted to `size_type` whatever
that result is: an unsigned `n` is never below 0.  So when the OS read reports
an error by a negative result, no exception is thrown and the caller gets the
wrapped value as a byte count. -/
theorem Stream.Read_blocking_error_returned (abi : Abi) (os : Os) (s : Stream)
    (buffer : List Byte) (bufsize : Nat) (w : World)
    (hunsigned : abi.size_type_signed = false) (ht : s.timeout < 0) :
    (Stream.Read abi os s buffer bufsize w).1
        = .ret (wrapUnsigned abi.size_bits (os.respond w.trace (.read s.m_sockFd bufsize)).ret) ∧
      (Stream.Read abi os s buffer bufsize w).1.isException = false ∧
      (Stream.Read abi os s buffer bufsize w).2.2.trace
        = w.trace ++ [{ call := .read s.m_sockFd bufsize,
                        reply := os.respond w.trace (.read s.m_sockFd bufsize) }] := by
  have hc : ∀ x, toSizeType abi x = wrapUnsigned abi.size_bits x := by
    intro x; simp [toSizeType, hunsigned]
  have hn : ¬ wrapUnsigned abi.size_bits (os.respond w.trace (.read s.m_sockFd bufsize)).ret < 0 :=
    not_lt.mpr (wrapUnsigned_nonneg _ _)
  simp [Stream.Read, syscall, ht, hc, hn, Outcome.isException]

/-- C3, at a concrete input: a blocking read on the 64-bit target whose OS read
fails with -1 returns 2^64 - 1 and throws nothing. -/
theorem Stream.Read_blocking_error_returned_witness :
    (Stream.Read lp64 (constOs { ret := -1, errno := 104, data := [] })
        { m_sockFd := 3, timeout := -1 } [0, 0] 2 World.init).1
      = .ret 18446744073709551615 := by
  have h := (Stream.Read_blocking_error_returned lp64
    (constOs { ret := -1, errno := 104, data := [] })
    { m_sockFd := 3, timeout := -1 } [0, 0] 2 World.init rfl (by decide)).1
  rw [h]
  decide

/-- C5: with timeout 0, when the immediate OS read fails with `EAGAIN`,
`Stream::Read` throws `Timeout`; the read is the only system call made: no
readiness poll and no second read. -/
theorem Stream.Read_zero_timeout_eagain (abi : Abi) (os : Os) (s : Stream)
    (buffer : List Byte) (bufsize : Nat) (w : World) (ht : s.timeout = 0)
    (hneg : (os.respond w.trace (.read s.m_sockFd bufsize)).ret < 0)
    (herr : (os.respond w.trace (.read s.m_sockFd bufsize)).errno = EAGAIN) :
    (Stream.Read abi os s buffer bufsize w).1 = .throw .Timeout ∧
      (Stream.Read abi os s buffer bufsize w).2.2.trace
        = w.trace ++ [{ call := .read s.m_sockFd bufsize,
                        reply := os.respond w.trace (.read s.m_sockFd bufsize) }] ∧
      pollCount (Stream.Read abi os s buffer bufsize w).2.2.trace = pollCount w.trace ∧
      readCount (Stream.Read abi os s buffer bufsize w).2.2.trace = readCount w.trace + 1 := by
  simp [Stream.Read, syscall, ht, hneg, herr, pollCount_append, pollCount, readCount_append,
    readCount]

/-- C5, at a concrete input. -/
theorem Stream.Read_zero_timeout_eagain_witness :
    (Stream.Read lp64 (constOs { ret := -1, errno := EAGAIN, data := [] })
        { m_sockFd := 3, timeout := 0 } [0, 0] 2 World.init).1 = .throw .Timeout :=
  (Stream.Read_zero_timeout_eagain lp64 (constOs { ret := -1, errno := EAGAIN, data := [] })
    { m_sockFd := 3, timeout := 0 } [0, 0] 2 World.init rfl (by decide) rfl).1

/-- C6: with timeout t > 0, after the immediate OS read failed with `EAGAIN`,
the readiness poll is called with timeout t; if it returns 0, `Stream::Read`
throws `Timeout` (not the transport exception); if it returns a negative value,
`Stream::Read` throws the transport exception (not `Timeout`); in both cases
the trace ends with the poll: no further OS read is made. -/
theorem Stream.Read_poll_failure (abi : Abi) (os : Os) (s : Stream)
    (buffer : List Byte) (bufsize : Nat) (w : World) (r1 p : Reply)
    (ht : 0 < s.timeout)
    (hr1 : os.respond w.trace (.read s.m_sockFd bufsize) = r1)
    (hneg : r1.ret < 0) (herr : r1.errno = EAGAIN)
    (hp : os.respond (w.trace ++ [{ call := .read s.m_sockFd bufsize, reply := r1 }])
      (.poll s.m_sockFd POLLIN s.timeout) = p)
    (hfail : p.ret ≤ 0) :
    (p.ret = 0 → (Stream.Read abi os s buffer bufsize w).1 = .throw .Timeout) ∧
      (p.ret < 0 → (Stream.Read abi os s buffer bufsize w).1.isException = true ∧
        (Stream.Read abi os s buffer bufsize w).1.isTimeout = false) ∧
      (Stream.Read abi os s buffer bufsize w).2.2.trace
        = w.trace ++ [{ call := .read s.m_sockFd bufsize, reply := r1 },
                      { call := .poll s.m_sockFd POLLIN s.timeout, reply := p }] ∧
      readCount (Stream.Read abi os s buffer bufsize w).2.2.trace = readCount w.trace + 1 := by
  have ht0 : ¬ s.timeout < 0 := by omega
  have ht1 : ¬ s.timeout = 0 := by omega
  rcases lt_or_eq_of_le hfail with hlt | heq
  · have hne : ¬ p.ret = 0 := by omega
    simp [Stream.Read, syscall, ht0, ht1, hr1, hneg, herr, hp, hlt, hne, Exception,
      Outcome.isException, Outcome.isTimeout, readCount_append, readCount]
  · have hnl : ¬ p.ret < 0 := by omega
    simp [Stream.Read, syscall, ht0, ht1, hr1, hneg, herr, hp, heq, hnl,
      readCount_append, readCount]

/-- C6, at a concrete input: timeout 100 ms, the read finds nothing and the
poll elapses (returns 0): `Timeout`. -/
theorem Stream.Read_poll_failure_witness :
    (Stream.Read lp64
        (scriptOs [{ ret := -1, errno := EAGAIN, data := [] }]
          { ret := 0, errno := 0, data := [] })
        { m_sockFd := 3, timeout := 100 } [0, 0] 2 World.init).1 = .throw .Timeout :=
  (Stream.Read_poll_failure lp64
    (scriptOs [{ ret := -1, errno := EAGAIN, data := [] }] { ret := 0, errno := 0, data := [] })
    { m_sockFd := 3, timeout := 100 } [0, 0] 2 World.init
    { ret := -1, errno := EAGAIN, data := [] } { ret := 0, errno := 0, data := [] }
    (by decide) rfl (by decide) rfl rfl (by decide)).1 rfl

/-- C7 as stated fails: timeout 50 ms, the first read finds nothing (`EAGAIN`),
the poll reports the descriptor ready, and the retried read fails again with
-1.  Every premise of the claim holds, the retry has no byte count, and
`Stream::Read` still returns: the caller gets 2^64 - 1 on the 64-bit target,
which is neither a byte count of the retry nor its result. -/
theorem Stream.Read_retry_no_count_counterexample :
    (Stream.Read lp64
        (scriptOs [{ ret := -1, errno := EAGAIN, data := [] }, { ret := 1, errno := 0, data := [] }]
          { ret := -1, errno := EAGAIN, data := [] })
        { m_sockFd := 3, timeout := 50 } [0, 0] 2 World.init).1 = .ret 18446744073709551615 ∧
      (Stream.Read lp64
        (scriptOs [{ ret := -1, errno := EAGAIN, data := [] }, { ret := 1, errno := 0, data := [] }]
          { ret := -1, errno := EAGAIN, data := [] })
        { m_sockFd := 3, timeout := 50 } [0, 0] 2 World.init).1 ≠ .ret (-1) ∧
      calls (Stream.Read lp64
        (scriptOs [{ ret := -1, errno := EAGAIN, data := [] }, { ret := 1, errno := 0, data := [] }]
          { ret := -1, errno := EAGAIN, data := [] })
        { m_sockFd := 3, timeout := 50 } [0, 0] 2 World.init).2.2.trace
        = [.read 3 2, .poll 3 POLLIN 50, .read 3 2] := by
  refine ⟨by decide, by decide, by decide⟩

/-- C7, amended: a single `Stream::Read` makes at most two OS reads and at most
one poll, whatever the timeout and the OS.  With timeout t > 0, after the
immediate OS read failed with `EAGAIN` and the poll returned a positive value,
the OS read is retried exactly once (the trace is read, poll, read), and when
that retry returns a byte count (a result n >= 0) `Stream::Read` succeeds and
returns n. -/
theorem Stream.Read_retry_after_poll (abi : Abi) (os : Os) (s : Stream)
    (buffer : List Byte) (bufsize : Nat) (w : World) (r1 p r2 : Reply)
    (hr1 : os.respond w.trace (.read s.m_sockFd bufsize) = r1)
    (hp : os.respond (w.trace ++ [{ call := .read s.m_sockFd bufsize, reply := r1 }])
      (.poll s.m_sockFd POLLIN s.timeout) = p)
    (hr2 : os.respond (w.trace ++ [{ call := .read s.m_sockFd bufsize, reply := r1 },
        { call := .poll s.m_sockFd POLLIN s.timeout, reply := p }])
      (.read s.m_sockFd bufsize) = r2) :
    (readCount (Stream.Read abi os s buffer bufsize w).2.2.trace ≤ readCount w.trace + 2 ∧
      pollCount (Stream.Read abi os s buffer bufsize w).2.2.trace ≤ pollCount w.trace + 1) ∧
    (0 < s.timeout → r1.ret < 0 → r1.errno = EAGAIN → 0 < p.ret →
      (Stream.Read abi os s buffer bufsize w).2.2.trace
        = w.trace ++ [{ call := .read s.m_sockFd bufsize, reply := r1 },
                      { call := .poll s.m_sockFd POLLIN s.timeout, reply := p },
                      { call := .read s.m_sockFd bufsize, reply := r2 }] ∧
      (1 ≤ abi.size_bits → 0 ≤ r2.ret → r2.ret < 2 ^ (abi.size_bits - 1) →
        (Stream.Read abi os s buffer bufsize w).1 = .ret r2.ret)) := by
  constructor
  · unfold Stream.Read syscall
    simp only [hr1, hp]
    split_ifs <;>
      simp [readCount_append, readCount, pollCount_append, pollCount]
  · intro ht hneg herr hpos
    have ht0 : ¬ s.timeout < 0 := by omega
    have ht1 : ¬ s.timeout = 0 := by omega
    have hp0 : ¬ p.ret < 0 := by omega
    have hp1 : ¬ p.ret = 0 := by omega
    refine ⟨?_, ?_⟩
    · simp [Stream.Read, syscall, ht0, ht1, hr1, hneg, herr, hp, hp0, hp1, hr2]
    · intro hb h0 h1
      simp [Stream.Read, syscall, ht0, ht1, hr1, hneg, herr, hp, hp0, hp1, hr2,
        toSizeType_of_range abi r2.ret hb h0 h1]

/-- C7, amended, at a concrete input: timeout 100 ms, the first read finds
nothing, the poll reports the descriptor ready and the retry delivers 2 bytes. -/
theorem Stream.Read_retry_after_poll_witness :
    (Stream.Read lp64
        (scriptOs [{ ret := -1, errno := EAGAIN, data := [] }, { ret := 1, errno := 0, data := [] }]
          { ret := 2, errno := 0, data := [104, 105] })
        { m_sockFd := 3, timeout := 100 } [0, 0] 2 World.init).1 = .ret 2 :=
  ((Stream.Read_retry_after_poll lp64
    (scriptOs [{ ret := -1, errno := EAGAIN, data := [] }, { ret := 1, errno := 0, data := [] }]
      { ret := 2, errno := 0, data := [104, 105] })
    { m_sockFd := 3, timeout := 100 } [0, 0] 2 World.init
    { ret := -1, errno := EAGAIN, data := [] } { ret := 1, errno := 0, data := [] }
    { ret := 2, errno := 0, data := [104, 105] } rfl rfl rfl).2
      (by decide) (by decide) rfl (by decide)).2 (by decide) (by decide) (by decide)

/-! ## Socket::close and Socket::create -/

theorem Socket.close_closed (os : Os) (s : Socket) (w : World) (h : s.m_sockFd < 0) :
    Socket.close os s w = (.ret (), s, w) := by
  have h0 : ¬ 0 ≤ s.m_sockFd := by omega
  simp [Socket.close, h0]

theorem Socket.close_open (os : Os) (s : Socket) (w : World) (h : 0 ≤ s.m_sockFd) :
    Socket.close os s w
      = (.ret (), { m_sockFd := -1 },
          { trace := w.trace ++ [{ call := .close s.m_sockFd,
                                   reply := os.respond w.trace (.close s.m_sockFd) }],
            errno := if (os.respond w.trace (.close s.m_sockFd)).ret < 0
              then (os.respond w.trace (.close s.m_sockFd)).errno else w.errno }) := by
  simp [Socket.close, syscall, h]

theorem Socket.close_returns (os : Os) (s : Socket) (w : World) :
    (Socket.close os s w).1 = .ret () := by
  by_cases h : 0 ≤ s.m_sockFd
  · rw [Socket.close_open os s w h]
  · rw [Socket.close_closed os s w (by omega)]

theorem closeTimes_succ (os : Os) (k : Nat) (s : Socket) (w : World) :
    closeTimes os (k + 1) s w = ((Socket.close os s w).2.1, (Socket.close os s w).2.2) := by
  induction k generalizing s w with
  | zero => simp [closeTimes]
  | succ k ih =>
    rw [closeTimes, ih]
    by_cases h : 0 ≤ s.m_sockFd
    · rw [Socket.close_open os s w h]
      simp [Socket.close_closed]
    · rw [Socket.close_closed os s w (by omega)]
      simp [Socket.close_closed os s w (by omega)]

/-- C8: `Socket::close` never throws; afterwards the descriptor field is
negative, and it is -1 with exactly one OS close issued if the socket was open;
on a closed socket it changes nothing and makes no OS call; a second close
right after the first changes nothing and makes no OS call; and however many
times close is called in a row, the result is that of the first call, so at
most one system call, an OS close of the held descriptor, is added. -/
theorem Socket.close_idempotent (os : Os) (s : Socket) (w : World) :
    (Socket.close os s w).1 = .ret () ∧
      (Socket.close os s w).2.1.m_sockFd < 0 ∧
      (0 ≤ s.m_sockFd → (Socket.close os s w).2.1.m_sockFd = -1 ∧
        (Socket.close os s w).2.2.trace
          = w.trace ++ [{ call := .close s.m_sockFd,
                          reply := os.respond w.trace (.close s.m_sockFd) }]) ∧
      (s.m_sockFd < 0 → Socket.close os s w = (.ret (), s, w)) ∧
      Socket.close os (Socket.close os s w).2.1 (Socket.close os s w).2.2
        = (.ret (), (Socket.close os s w).2.1, (Socket.close os s w).2.2) ∧
      (∀ k : Nat, closeTimes os (k + 1) s w
        = ((Socket.close os s w).2.1, (Socket.close os s w).2.2)) ∧
      (∀ (k : Nat) (fd : Int),
        closeCount fd (closeTimes os k s w).2.trace ≤ closeCount fd w.trace + 1) := by
  have hsucc := closeTimes_succ os
  by_cases h : 0 ≤ s.m_sockFd
  · refine ⟨?_, ?_, ?_, ?_, ?_, ?_, ?_⟩
    · simp [Socket.close_open os s w h]
    · simp [Socket.close_open os s w h]
    · intro _; simp [Socket.close_open os s w h]
    · intro hn; omega
    · rw [Socket.close_open os s w h]; simp [Socket.close_closed]
    · intro k; exact hsucc k s w
    · intro k fd
      cases k with
      | zero => simp [closeTimes]
      | succ k =>
        rw [hsucc k s w, Socket.close_open os s w h]
        simp only [closeCount_append, closeCount]
        split <;> omega
  · have hn : s.m_sockFd < 0 := by omega
    refine ⟨?_, ?_, ?_, ?_, ?_, ?_, ?_⟩
    · simp [Socket.close_closed os s w hn]
    · simp [Socket.close_closed os s w hn, hn]
    · intro h0; omega
    · intro _; exact Socket.close_closed os s w hn
    · simp [Socket.close_closed os s w hn]
    · intro k; exact hsucc k s w
    · intro k fd
      cases k with
      | zero => simp [closeTimes]
      | succ k =>
        rw [hsucc k s w, Socket.close_closed os s w hn]
        simp

/-- C8, at a concrete input: closing the open descriptor 5 leaves -1 and one
OS close in the trace. -/
theorem Socket.close_idempotent_witness :
    (0 : Int) ≤ 5 ∧ (Socket.close fullOs { m_sockFd := 5 } World.init).2.1.m_sockFd = -1 :=
  ⟨by decide,
    ((Socket.close_idempotent fullOs { m_sockFd := 5 } World.init).2.2.1 (by decide)).1⟩

/-- C9: `Socket::create` first closes the socket (an OS close on the held
descriptor if there is one, nothing otherwise) and then makes the OS socket
call; it throws the exception "cannot create socket" if and only if that call
returns a negative value, and otherwise returns with the socket holding the
descriptor the OS returned. -/
theorem Socket.create_spec (os : Os) (s : Socket) (domain type protocol : Int) (w : World) :
    (Socket.create os s domain type protocol w).2.2.trace
        = (Socket.close os s w).2.2.trace
          ++ [{ call := .socket domain type protocol,
                reply := os.respond (Socket.close os s w).2.2.trace
                  (.socket domain type protocol) }] ∧
      (0 ≤ s.m_sockFd → (Socket.close os s w).2.2.trace
          = w.trace ++ [{ call := .close s.m_sockFd,
                          reply := os.respond w.trace (.close s.m_sockFd) }]) ∧
      (s.m_sockFd < 0 → (Socket.close os s w).2.2.trace = w.trace) ∧
      ((Socket.create os s domain type protocol w).1.isException = true ↔
        (os.respond (Socket.close os s w).2.2.trace (.socket domain type protocol)).ret < 0) ∧
      ((os.respond (Socket.close os s w).2.2.trace (.socket domain type protocol)).ret < 0 →
        (Socket.create os s domain type protocol w).1
          = .throw (.Exception (Socket.create os s domain type protocol w).2.2.errno
              ("cannot create socket" ++ ": "
                ++ os.strerror (Socket.create os s domain type protocol w).2.2.errno))) ∧
      (0 ≤ (os.respond (Socket.close os s w).2.2.trace (.socket domain type protocol)).ret →
        (Socket.create os s domain type protocol w).1 = .ret () ∧
        (Socket.create os s domain type protocol w).2.1.m_sockFd
          = (os.respond (Socket.close os s w).2.2.trace (.socket domain type protocol)).ret) := by
  have hc : (Socket.close os s w).1 = .ret () := Socket.close_returns os s w
  have hcreate : Socket.create os s domain type protocol w
      = (if (os.respond (Socket.close os s w).2.2.trace (.socket domain type protocol)).ret < 0
          then (.throw (Exception os
                (syscall os (.socket domain type protocol) (Socket.close os s w).2.2).2
                "cannot create socket"),
              { m_sockFd := (os.respond (Socket.close os s w).2.2.trace
                  (.socket domain type protocol)).ret },
              (syscall os (.socket domain type protocol) (Socket.close os s w).2.2).2)
          else (.ret (),
              { m_sockFd := (os.respond (Socket.close os s w).2.2.trace
                  (.socket domain type protocol)).ret },
              (syscall os (.socket domain type protocol) (Socket.close os s w).2.2).2)) := by
    unfold Socket.create
    rcases hcl : Socket.close os s w with ⟨o, s1, w1⟩
    rw [hcl] at hc
    simp only at hc
    subst hc
    simp [syscall]
  refine ⟨?_, ?_, ?_, ?_, ?_, ?_⟩
  · rw [hcreate]; split <;> simp [syscall]
  · intro h; rw [Socket.close_open os s w h]
  · intro h; rw [Socket.close_closed os s w h]
  · rw [hcreate]; split <;> simp_all [Outcome.isException, Exception]
  · intro h; rw [hcreate]; simp [h, Exception, syscall]
  · intro h
    have h0 : ¬ (os.respond (Socket.close os s w).2.2.trace
        (.socket domain type protocol)).ret < 0 := by omega
    rw [hcreate]; simp [h0]

/-- C9, at a concrete input: a socket holding descriptor 5 is re-created; the
OS answers the socket call with -1. -/
theorem Socket.create_spec_witness :
    (Socket.create (constOs { ret := -1, errno := 24, data := [] }) { m_sockFd := 5 }
        2 1 0 World.init).1
      = .throw (.Exception 24 "cannot create socket: error") := by
  have h := (Socket.create_spec (constOs { ret := -1, errno := 24, data := [] })
    { m_sockFd := 5 } 2 1 0 World.init).2.2.2.2.1 (by decide)
  rw [h]
  decide

/-! ## Stream::setTimeout -/

/-- C10: `Stream::setTimeout t` never throws and always stores t, leaving the
descriptor as it was; with an open descriptor it makes exactly one system
call, `fcntl(fd, F_SETFL, a)`, where `a` is `O_NONBLOCK` when t >= 0 and 0
otherwise, so the requested mode is non-blocking if and only if t >= 0; with no
open descriptor the world is unchanged (no system call at all). -/
theorem Stream.setTimeout_spec (os : Os) (s : Stream) (t : Int) (w : World) :
    (Stream.setTimeout os s t w).1 = .ret () ∧
      (Stream.setTimeout os s t w).2.1 = { s with timeout := t } ∧
      (0 ≤ s.m_sockFd →
        (Stream.setTimeout os s t w).2.2.trace
          = w.trace ++ [{ call := .fcntl_setfl s.m_sockFd (if 0 ≤ t then O_NONBLOCK else 0),
                          reply := os.respond w.trace
                            (.fcntl_setfl s.m_sockFd (if 0 ≤ t then O_NONBLOCK else 0)) }]) ∧
      (flagsNonBlocking (if 0 ≤ t then O_NONBLOCK else 0) = true ↔ 0 ≤ t) ∧
      (s.m_sockFd < 0 → (Stream.setTimeout os s t w).2.2 = w) := by
  have hflags : flagsNonBlocking (if 0 ≤ t then O_NONBLOCK else 0) = true ↔ 0 ≤ t := by
    by_cases ht : 0 ≤ t
    · simp [ht, flagsNonBlocking, O_NONBLOCK]
    · simp [ht, flagsNonBlocking, O_NONBLOCK]
  by_cases h : 0 ≤ s.m_sockFd
  · refine ⟨by simp [Stream.setTimeout, h], by simp [Stream.setTimeout, h], ?_, hflags, ?_⟩
    · intro _
      simp [Stream.setTimeout, syscall, h]
    · intro hn; omega
  · refine ⟨by simp [Stream.setTimeout, h], by simp [Stream.setTimeout, h], ?_, hflags, ?_⟩
    · intro h0; omega
    · intro _; simp [Stream.setTimeout, h]

/-- C10, at a concrete input: timeout 0 on the open descriptor 3 issues
`fcntl(3, F_SETFL, O_NONBLOCK)` and nothing else. -/
theorem Stream.setTimeout_spec_witness :
    (0 : Int) ≤ 3 ∧
      (Stream.setTimeout fullOs { m_sockFd := 3, timeout := -1 } 0 World.init).2.2.trace
        = [{ call := .fcntl_setfl 3 O_NONBLOCK, reply := { ret := 0, errno := 0, data := [] } }] := by
  refine ⟨by decide, ?_⟩
  have h := (Stream.setTimeout_spec fullOs { m_sockFd := 3, timeout := -1 } 0
    World.init).2.2.1 (by decide)
  rw [h]
  decide

/-! ## Round trip through the stream adapter -/

theorem accepted_append (xs ys : List Event) :
    accepted (xs ++ ys) = accepted xs ++ accepted ys := by
  induction xs with
  | nil => simp [accepted]
  | cons e es ih => simp [accepted, ih]

theorem pending_store (buf : List Byte) (b p : Nat) (c : Byte) (hbp : b ≤ p)
    (hp : p < buf.length) :
    ((buf.set p c).drop b).take (p + 1 - b) = (buf.drop b).take (p - b) ++ [c] := by
  induction buf generalizing b p with
  | nil => simp at hp
  | cons x xs ih =>
    cases p with
    | zero =>
      have hb : b = 0 := by omega
      subst hb
      simp
    | succ p =>
      have hp1 : p < xs.length := by simpa using hp
      cases b with
      | zero =>
        have h := ih 0 p (Nat.zero_le _) hp1
        simp only [List.drop_zero, Nat.sub_zero] at h
        simp only [List.set_cons_succ, List.drop_zero, Nat.sub_zero, List.take_succ_cons,
          List.cons_append, h]
      | succ b =>
        have h := ih b p (by omega) hp1
        simpa [Nat.add_sub_add_right] using h

theorem two_pow_31_le (bits : Nat) (h : 32 ≤ bits) : (2 : Int) ^ 31 ≤ 2 ^ (bits - 1) :=
  pow_le_pow_right₀ (by norm_num) (by omega)

/-- When the OS accepts all bytes offered, `Stream::Write` returns their number. -/
theorem Stream.Write_all (abi : Abi) (os : Os) (s : Stream) (buffer : List Byte)
    (bufsize : Nat) (w : World) (hall : os.writesAll) (hbits : 32 ≤ abi.size_bits)
    (hne : buffer.take bufsize ≠ []) (hlen : (buffer.take bufsize).length < 2 ^ 31) :
    Stream.Write abi os s buffer bufsize w
      = (.ret ((buffer.take bufsize).length : Int),
          { trace := w.trace ++ [{ call := .write s.m_sockFd (buffer.take bufsize),
                                   reply := os.respond w.trace
                                     (.write s.m_sockFd (buffer.take bufsize)) }],
            errno := w.errno }) := by
  have hret := hall w.trace s.m_sockFd _ hne
  have hpos : 0 < (buffer.take bufsize).length := List.length_pos.mpr hne
  have hposz : (0 : Int) < ((buffer.take bufsize).length : Int) := by exact_mod_cast hpos
  have hltz : (((buffer.take bufsize).length : Nat) : Int) < 2 ^ 31 := by exact_mod_cast hlen
  have h31 := two_pow_31_le abi.size_bits hbits
  have hle := two_pow_pred_le abi.size_bits
  have hu : wrapUnsigned abi.size_bits ((buffer.take bufsize).length : Int)
      = ((buffer.take bufsize).length : Int) :=
    wrapUnsigned_of_range _ _ (le_of_lt hposz) (by linarith)
  have hs : toSizeType abi ((buffer.take bufsize).length : Int)
      = ((buffer.take bufsize).length : Int) :=
    toSizeType_of_range _ _ (by omega) (le_of_lt hposz) (by linarith)
  have hn0 : ¬ (((buffer.take bufsize).length : Nat) : Int) ≤ 0 := by omega
  have hn1 : ¬ (((buffer.take bufsize).length : Nat) : Int) < 0 := by omega
  unfold Stream.Write syscall
  simp only [hret, hu, hs, hn0, hn1, if_false]

theorem wrapSigned_int_of_count (n : Nat) (h : n < 2 ^ 31) :
    wrapSigned int_bits (n : Int) = n := by
  have hz : ((n : Nat) : Int) < 2 ^ 31 := by exact_mod_cast h
  exact wrapSigned_of_range int_bits _ (by decide) (by simp [int_bits]; omega)
    (by simpa [int_bits] using hz)

theorem streambuf.pending_length (sb : streambuf) (hwf : sb.WF) :
    sb.pending.length = sb.pptr - sb.pbase := by
  obtain ⟨h1, _, _, _, h5, h6⟩ := hwf
  simp [streambuf.pending, List.length_take, List.length_drop]
  omega

theorem toChar_val (c : Byte) : toChar (c.val : Int) = c := by
  apply Fin.ext
  have h := c.isLt
  simp only [toChar]
  omega

theorem byte_ne_eof (c : Byte) : ((c.val : Nat) : Int) ≠ eof := by
  unfold eof
  omega

theorem streambuf.overflow_stage_byte (sb : streambuf) (c : Byte) :
    sb.overflow_stage (c.val : Int)
      = (.ret 0, { sb with m_buffer := sb.m_buffer.set 0 c, pbase := 0, pptr := 1,
                           epptr := sb.m_bufsize }) := by
  simp [streambuf.overflow_stage, byte_ne_eof, toChar_val, streambuf.setp]

/-- The flush shared by `overflow` and `sync`, when the OS accepts all bytes:
the write of the pending output returns its length. -/
theorem streambuf.flush_all (abi : Abi) (os : Os) (sb : streambuf) (w : World)
    (hall : os.writesAll) (hbits : 32 ≤ abi.size_bits) (hwf : sb.WF)
    (hpend : sb.pptr ≠ sb.pbase) :
    ∃ w1 : World,
      Stream.Write abi os sb.m_stream (sb.m_buffer.drop sb.pbase) (sb.pptr - sb.pbase) w
        = (.ret ((sb.pptr - sb.pbase : Nat) : Int), w1) ∧
      accepted w1.trace = accepted w.trace ++ sb.pending ∧
      0 < wrapSigned int_bits ((sb.pptr - sb.pbase : Nat) : Int) := by
  have hlen := streambuf.pending_length sb hwf
  obtain ⟨h1, h2, h3, h4, h5, h6⟩ := hwf
  have hpos : 0 < sb.pptr - sb.pbase := by omega
  have hne : (sb.m_buffer.drop sb.pbase).take (sb.pptr - sb.pbase) ≠ [] := by
    intro h
    have : sb.pending.length = 0 := by simp [streambuf.pending, h]
    omega
  have hlt : ((sb.m_buffer.drop sb.pbase).take (sb.pptr - sb.pbase)).length < 2 ^ 31 := by
    have : ((sb.m_buffer.drop sb.pbase).take (sb.pptr - sb.pbase)).length
        = sb.pptr - sb.pbase := hlen
    omega
  have hw := Stream.Write_all abi os sb.m_stream (sb.m_buffer.drop sb.pbase)
    (sb.pptr - sb.pbase) w hall hbits hne hlt
  have hl : ((sb.m_buffer.drop sb.pbase).take (sb.pptr - sb.pbase)).length
      = sb.pptr - sb.pbase := hlen
  rw [hl] at hw
  refine ⟨_, hw, ?_, ?_⟩
  · have hret := hall w.trace sb.m_stream.m_sockFd _ hne
    simp only [accepted_append, accepted, Event.accepted, hret, Int.toNat_ofNat,
      List.take_length, List.append_nil]
    rfl
  · rw [wrapSigned_int_of_count _ (by omega)]
    exact_mod_cast hpos

theorem streambuf.overflow_all (abi : Abi) (os : Os) (sb : streambuf) (c : Byte) (w : World)
    (hall : os.writesAll) (hbits : 32 ≤ abi.size_bits) (hwf : sb.WF) :
    ∃ w1 : World,
      sb.overflow abi os (c.val : Int) w
        = (.ret 0, { sb with m_buffer := sb.m_buffer.set 0 c, pbase := 0, pptr := 1,
                             epptr := sb.m_bufsize }, w1) ∧
      accepted w1.trace = accepted w.trace ++ sb.pending := by
  by_cases hpend : sb.pptr ≠ sb.pbase
  · obtain ⟨w1, hw, hacc, hn⟩ := streambuf.flush_all abi os sb w hall hbits hwf hpend
    refine ⟨w1, ?_, hacc⟩
    have hn0 : ¬ wrapSigned int_bits ((sb.pptr - sb.pbase : Nat) : Int) ≤ 0 := by omega
    unfold streambuf.overflow
    rw [if_pos hpend, hw]
    simp only [hn0, if_false, streambuf.overflow_stage_byte]
  · have heq : sb.pptr = sb.pbase := by
      by_contra h; exact hpend h
    refine ⟨w, ?_, ?_⟩
    · unfold streambuf.overflow
      rw [if_neg hpend]
      simp only [streambuf.overflow_stage_byte]
    · simp [streambuf.pending, heq]

theorem streambuf.sync_all (abi : Abi) (os : Os) (sb : streambuf) (w : World)
    (hall : os.writesAll) (hbits : 32 ≤ abi.size_bits) (hwf : sb.WF) :
    ∃ (sb1 : streambuf) (w1 : World),
      sb.sync abi os w = (.ret 0, sb1, w1) ∧ sb1.pending = [] ∧
      accepted w1.trace = accepted w.trace ++ sb.pending := by
  by_cases hpend : sb.pptr ≠ sb.pbase
  · obtain ⟨w1, hw, hacc, hn⟩ := streambuf.flush_all abi os sb w hall hbits hwf hpend
    refine ⟨sb.setp 0 sb.m_bufsize, w1, ?_, by simp [streambuf.pending, streambuf.setp], hacc⟩
    have hn0 : ¬ wrapSigned int_bits ((sb.pptr - sb.pbase : Nat) : Int) ≤ 0 := by omega
    unfold streambuf.sync
    rw [if_pos hpend, hw]
    simp only [hn0, if_false]
  · have heq : sb.pptr = sb.pbase := by
      by_contra h; exact hpend h
    refine ⟨sb, w, ?_, by simp [streambuf.pending, heq], by simp [streambuf.pending, heq]⟩
    unfold streambuf.sync
    rw [if_neg hpend]

theorem streambuf.sputc_all (abi : Abi) (os : Os) (sb : streambuf) (c : Byte) (w : World)
    (hall : os.writesAll) (hbits : 32 ≤ abi.size_bits) (hwf : sb.WF) :
    ∃ (v : Int) (sb1 : streambuf) (w1 : World),
      sb.sputc abi os c w = (.ret v, sb1, w1) ∧ v ≠ eof ∧ sb1.WF ∧
      accepted w1.trace ++ sb1.pending = accepted w.trace ++ sb.pending ++ [c] := by
  by_cases hroom : sb.pptr < sb.epptr
  · refine ⟨(c.val : Int), { sb with m_buffer := sb.m_buffer.set sb.pptr c, pptr := sb.pptr + 1 },
      w, by simp [streambuf.sputc, hroom], byte_ne_eof c, ?_, ?_⟩
    · obtain ⟨h1, h2, h3, h4, h5, h6⟩ := hwf
      refine ⟨by simpa using h1, h2, h3, ?_, ?_, h6⟩
      · show sb.pbase ≤ sb.pptr + 1
        omega
      · show sb.pptr + 1 ≤ sb.epptr
        omega
    · obtain ⟨h1, h2, h3, h4, h5, h6⟩ := hwf
      have hst := pending_store sb.m_buffer sb.pbase sb.pptr c h4 (by omega)
      simp only [streambuf.pending, hst, List.append_assoc]
  · obtain ⟨w1, how, hacc⟩ := streambuf.overflow_all abi os sb c w hall hbits hwf
    refine ⟨0, { sb with m_buffer := sb.m_buffer.set 0 c, pbase := 0, pptr := 1,
                         epptr := sb.m_bufsize },
      w1, by simp [streambuf.sputc, hroom, how], by decide, ?_, ?_⟩
    · obtain ⟨h1, h2, h3, h4, h5, h6⟩ := hwf
      refine ⟨by simpa using h1, h2, h3, ?_, ?_, ?_⟩
      · show 0 ≤ 1
        omega
      · show 1 ≤ sb.m_bufsize
        exact h2
      · show sb.m_bufsize ≤ sb.m_bufsize
        exact le_refl _
    · obtain ⟨h1, h2, h3, h4, h5, h6⟩ := hwf
      have hlen : 0 < sb.m_buffer.length := by omega
      have hp : (List.take (1 - 0) (List.drop 0 (sb.m_buffer.set 0 c))) = [c] := by
        cases hb : sb.m_buffer with
        | nil => simp [hb] at hlen
        | cons x xs => simp
      rw [hacc]
      simp only [streambuf.pending, hp]

theorem streambuf.putBytes_all (abi : Abi) (os : Os) (bytes : List Byte) (sb : streambuf)
    (w : World) (hall : os.writesAll) (hbits : 32 ≤ abi.size_bits) (hwf : sb.WF) :
    ∃ (sb1 : streambuf) (w1 : World),
      streambuf.putBytes abi os sb bytes w = (.ret 0, sb1, w1) ∧ sb1.WF ∧
      accepted w1.trace ++ sb1.pending = accepted w.trace ++ sb.pending ++ bytes := by
  induction bytes generalizing sb w with
  | nil => exact ⟨sb, w, by simp [streambuf.putBytes], hwf, by simp⟩
  | cons c cs ih =>
    obtain ⟨v, sb1, w1, hput, hv, hwf1, hacc1⟩ :=
      streambuf.sputc_all abi os sb c w hall hbits hwf
    obtain ⟨sb2, w2, hrest, hwf2, hacc2⟩ := ih sb1 w1 hwf1
    refine ⟨sb2, w2, ?_, hwf2, ?_⟩
    · simp only [streambuf.putBytes, hput, hv, if_false, hrest]
    · rw [hacc2, hacc1]
      simp

theorem fullOs_writesAll : fullOs.writesAll := by
  intro hist fd bytes _
  rfl

/-- C2 as stated fails: the OS accepts one byte of each write (a positive
count, no failure reported).  Two bytes are put into an adapter with a buffer
of four characters and flushed; `sync` offers both bytes in one write, takes
the positive count as success and resets the put area: it returns 0, and the
transport has accepted the first byte only. -/
theorem streambuf.roundtrip_short_write_counterexample :
    (constOs { ret := 1, errno := 0, data := [] }).writesSome ∧
      (streambuf.fresh { m_sockFd := 3, timeout := -1 } 4).WF ∧
      (streambuf.putThenSync lp64 (constOs { ret := 1, errno := 0, data := [] })
        (streambuf.fresh { m_sockFd := 3, timeout := -1 } 4) [104, 105] World.init).1 = .ret 0 ∧
      (streambuf.putThenSync lp64 (constOs { ret := 1, errno := 0, data := [] })
        (streambuf.fresh { m_sockFd := 3, timeout := -1 } 4) [104, 105] World.init).2.1.pending
          = [] ∧
      accepted (streambuf.putThenSync lp64 (constOs { ret := 1, errno := 0, data := [] })
        (streambuf.fresh { m_sockFd := 3, timeout := -1 } 4) [104, 105] World.init).2.2.trace
          = [104] ∧
      accepted (streambuf.putThenSync lp64 (constOs { ret := 1, errno := 0, data := [] })
        (streambuf.fresh { m_sockFd := 3, timeout := -1 } 4) [104, 105] World.init).2.2.trace
          ≠ [104, 105] := by
  refine ⟨?_, by decide, by decide, by decide, by decide, by decide⟩
  intro hist fd bytes hne
  have hpos : 0 < bytes.length := List.length_pos.mpr hne
  simp only [constOs]
  omega

/-- C2, amended: if every OS write accepts all the bytes it is offered, then
for an adapter with a consistent put area and a buffer of 1 to 2^31 - 1
characters (on a target whose `size_t` has at least 32 bits), putting any
sequence of bytes and flushing with `sync` succeeds (every put and the sync
report success, nothing is thrown), leaves no output pending, and the bytes
accepted by the transport during the run are, in order, the output that was
pending before followed by exactly the bytes that were put. -/
theorem streambuf.roundtrip_full_writes (abi : Abi) (os : Os) (sb : streambuf)
    (bytes : List Byte) (w : World)
    (hall : os.writesAll) (hbits : 32 ≤ abi.size_bits) (hwf : sb.WF) :
    (sb.putThenSync abi os bytes w).1 = .ret 0 ∧
      (sb.putThenSync abi os bytes w).2.1.pending = [] ∧
      accepted (sb.putThenSync abi os bytes w).2.2.trace
        = accepted w.trace ++ sb.pending ++ bytes := by
  obtain ⟨sb1, w1, hput, hwf1, hacc1⟩ :=
    streambuf.putBytes_all abi os bytes sb w hall hbits hwf
  obtain ⟨sb2, w2, hsync, hpend2, hacc2⟩ := streambuf.sync_all abi os sb1 w1 hall hbits hwf1
  have hrun : sb.putThenSync abi os bytes w = (.ret 0, sb2, w2) := by
    have h0 : ¬ (0 : Int) = eof := by decide
    simp only [streambuf.putThenSync, hput, h0, if_false, hsync]
  rw [hrun]
  refine ⟨rfl, hpend2, ?_⟩
  show accepted w2.trace = accepted w.trace ++ sb.pending ++ bytes
  rw [hacc2, hacc1]

/-- C2, amended, at a concrete input: three bytes through a buffer of two
characters, over an OS that accepts every byte offered. -/
theorem streambuf.roundtrip_full_writes_witness :
    accepted (streambuf.putThenSync lp64 fullOs
        (streambuf.fresh { m_sockFd := 3, timeout := -1 } 2) [104, 105, 33] World.init).2.2.trace
      = accepted World.init.trace
        ++ (streambuf.fresh { m_sockFd := 3, timeout := -1 } 2).pending ++ [104, 105, 33] :=
  (streambuf.roundtrip_full_writes lp64 fullOs
    (streambuf.fresh { m_sockFd := 3, timeout := -1 } 2) [104, 105, 33] World.init
    fullOs_writesAll (by decide) (by decide)).2.2

/-! ## Failure and success of the flush in overflow and sync -/

theorem Stream.Write_trace (abi : Abi) (os : Os) (s : Stream) (buffer : List Byte)
    (bufsize : Nat) (w : World) :
    (Stream.Write abi os s buffer bufsize w).2.trace
      = w.trace ++ [{ call := .write s.m_sockFd (buffer.take bufsize),
                      reply := os.respond w.trace (.write s.m_sockFd (buffer.take bufsize)) }] := by
  unfold Stream.Write syscall
  simp only []
  split <;> rfl

theorem streambuf.overflow_stage_spec (sb : streambuf) (c : Int)
    (hlen : sb.m_buffer.length = sb.m_bufsize) (hsize : 1 ≤ sb.m_bufsize) :
    (sb.overflow_stage c).1 = .ret 0 ∧
      (sb.overflow_stage c).2.pbase = 0 ∧
      (sb.overflow_stage c).2.epptr = sb.m_bufsize ∧
      (sb.overflow_stage c).2.m_bufsize = sb.m_bufsize ∧
      (c ≠ eof → (sb.overflow_stage c).2.pending = [toChar c]) ∧
      (c = eof → (sb.overflow_stage c).2.pending = [] ∧
        (sb.overflow_stage c).2.m_buffer = sb.m_buffer) := by
  by_cases hc : c = eof
  · simp [streambuf.overflow_stage, hc, streambuf.setp, streambuf.pending]
  · have hpos : 0 < sb.m_buffer.length := by omega
    have hp : (List.take (1 - 0) (List.drop 0 (sb.m_buffer.set 0 (toChar c)))) = [toChar c] := by
      cases hb : sb.m_buffer with
      | nil => simp [hb] at hpos
      | cons x xs => simp
    simp only [streambuf.overflow_stage, hc, streambuf.setp, streambuf.pending, ne_eq,
      not_false_eq_true, if_true, true_and, zero_add, hp, false_implies, and_true,
      implies_true]

/-- C12: for an adapter whose buffer has `m_bufsize >= 1` characters, when
`streambuf::overflow c` does not fail (it returns a value other than eof):
the value returned is 0; if output was pending, the trace grew by exactly one
write, of exactly the pending bytes, and if none was pending the world is
unchanged; afterwards the put area is the whole buffer (`pbase` at its start,
`epptr` at its end) and the pending output is the single character `c` when `c`
is not eof and empty when it is. -/
theorem streambuf.overflow_success (abi : Abi) (os : Os) (sb : streambuf) (c : Int)
    (w : World) (v : Int)
    (hlen : sb.m_buffer.length = sb.m_bufsize) (hsize : 1 ≤ sb.m_bufsize)
    (hret : (sb.overflow abi os c w).1 = .ret v) (hv : v ≠ eof) :
    v = 0 ∧
      (sb.pptr ≠ sb.pbase →
        (sb.overflow abi os c w).2.2.trace
          = w.trace ++ [{ call := .write sb.m_stream.m_sockFd sb.pending,
                          reply := os.respond w.trace
                            (.write sb.m_stream.m_sockFd sb.pending) }]) ∧
      (sb.pptr = sb.pbase → (sb.overflow abi os c w).2.2 = w) ∧
      (sb.overflow abi os c w).2.1.pbase = 0 ∧
      (sb.overflow abi os c w).2.1.epptr = sb.m_bufsize ∧
      (c ≠ eof → (sb.overflow abi os c w).2.1.pending = [toChar c]) ∧
      (c = eof → (sb.overflow abi os c w).2.1.pending = []) := by
  obtain ⟨hs1, hs2, hs3, _, hs5, hs6⟩ := streambuf.overflow_stage_spec sb c hlen hsize
  by_cases hpend : sb.pptr ≠ sb.pbase
  · have htr := Stream.Write_trace abi os sb.m_stream (sb.m_buffer.drop sb.pbase)
      (sb.pptr - sb.pbase) w
    unfold streambuf.overflow at hret ⊢
    rw [if_pos hpend] at hret ⊢
    rcases hw : Stream.Write abi os sb.m_stream (sb.m_buffer.drop sb.pbase)
      (sb.pptr - sb.pbase) w with ⟨o, w1⟩
    rw [hw] at hret htr
    cases o with
    | throw e => simp at hret
    | ret n =>
      by_cases hn : wrapSigned int_bits n ≤ 0
      · simp only [hn, if_true] at hret
        exact absurd (Outcome.ret.inj hret).symm hv
      · simp only [hn, if_false] at hret ⊢
        rw [hs1] at hret
        refine ⟨(Outcome.ret.inj hret).symm, fun _ => htr, fun h => absurd h hpend, hs2, hs3,
          hs5, fun h => (hs6 h).1⟩
  · have heq : sb.pptr = sb.pbase := by
      by_contra h; exact hpend h
    unfold streambuf.overflow at hret ⊢
    rw [if_neg hpend] at hret ⊢
    rw [hs1] at hret
    refine ⟨(Outcome.ret.inj hret).symm, fun h => absurd heq h, fun _ => rfl, hs2, hs3,
      hs5, fun h => (hs6 h).1⟩

/-- C12, at a concrete input: two bytes pending, the OS accepts both, and the
character 33 arrives: it is the pending output afterwards. -/
theorem streambuf.overflow_success_witness :
    (streambuf.pendingHi.overflow lp64 fullOs 33 World.init).2.1.pending = [33] :=
  (streambuf.overflow_success lp64 fullOs streambuf.pendingHi 33 World.init 0
    (by decide) (by decide) (by decide) (by decide)).2.2.2.2.2.1 (by decide)

/-- C14: `streambuf::sync` and `streambuf::overflow` called with eof leave the
same world behind, for every adapter state: nothing is written when nothing is
pending, and otherwise one write of exactly the pending bytes.  Neither stores
a character in the buffer.  They fail together (`sync` returns -1 exactly when
`overflow` returns eof, and they throw the same exception), and they succeed
together: when the write succeeds `sync` returns 0, `overflow` returns 0, and
both leave the pending output empty. -/
theorem streambuf.sync_matches_overflow_eof (abi : Abi) (os : Os) (sb : streambuf)
    (w : World) :
    (sb.sync abi os w).2.2 = (sb.overflow abi os eof w).2.2 ∧
      (sb.pptr = sb.pbase → (sb.sync abi os w).2.2 = w) ∧
      (sb.pptr ≠ sb.pbase →
        (sb.sync abi os w).2.2.trace
          = w.trace ++ [{ call := .write sb.m_stream.m_sockFd sb.pending,
                          reply := os.respond w.trace
                            (.write sb.m_stream.m_sockFd sb.pending) }]) ∧
      (sb.sync abi os w).2.1.m_buffer = sb.m_buffer ∧
      (sb.overflow abi os eof w).2.1.m_buffer = sb.m_buffer ∧
      ((sb.sync abi os w).1 = .ret 0 ∨ (sb.sync abi os w).1 = .ret (-1) ∨
        ∃ e, (sb.sync abi os w).1 = .throw e) ∧
      ((sb.sync abi os w).1 = .ret 0 ↔ (sb.overflow abi os eof w).1 = .ret 0) ∧
      ((sb.sync abi os w).1 = .ret (-1) ↔ (sb.overflow abi os eof w).1 = .ret eof) ∧
      (∀ e, (sb.sync abi os w).1 = .throw e ↔ (sb.overflow abi os eof w).1 = .throw e) ∧
      ((sb.sync abi os w).1 = .ret 0 →
        (sb.sync abi os w).2.1.pending = [] ∧ (sb.overflow abi os eof w).2.1.pending = []) := by
  have hstage : sb.overflow_stage eof = (.ret 0, sb.setp 0 sb.m_bufsize) := by
    simp [streambuf.overflow_stage]
  have h0 : ¬ (0 : Int) = eof := by decide
  by_cases hpend : sb.pptr ≠ sb.pbase
  · have htr := Stream.Write_trace abi os sb.m_stream (sb.m_buffer.drop sb.pbase)
      (sb.pptr - sb.pbase) w
    rcases hw : Stream.Write abi os sb.m_stream (sb.m_buffer.drop sb.pbase)
      (sb.pptr - sb.pbase) w with ⟨o, w1⟩
    rw [hw] at htr
    cases o with
    | throw e =>
      have hs : sb.sync abi os w = (.throw e, sb, w1) := by
        unfold streambuf.sync
        rw [if_pos hpend, hw]
      have ho : sb.overflow abi os eof w = (.throw e, sb, w1) := by
        unfold streambuf.overflow
        rw [if_pos hpend, hw]
      rw [hs, ho]
      refine ⟨rfl, fun h => absurd h hpend, fun _ => htr, rfl, rfl, ?_, ?_, ?_, ?_, ?_⟩ <;>
        simp
    | ret n =>
      by_cases hn : wrapSigned int_bits n ≤ 0
      · have hs : sb.sync abi os w = (.ret (-1), sb, w1) := by
          unfold streambuf.sync
          rw [if_pos hpend, hw]
          simp only [hn, if_true]
        have ho : sb.overflow abi os eof w = (.ret eof, sb, w1) := by
          unfold streambuf.overflow
          rw [if_pos hpend, hw]
          simp only [hn, if_true]
        rw [hs, ho]
        refine ⟨rfl, fun h => absurd h hpend, fun _ => htr, rfl, rfl, ?_, ?_, ?_, ?_, ?_⟩ <;>
          simp [eof]
      · have hs : sb.sync abi os w = (.ret 0, sb.setp 0 sb.m_bufsize, w1) := by
          unfold streambuf.sync
          rw [if_pos hpend, hw]
          simp only [hn, if_false]
        have ho : sb.overflow abi os eof w = (.ret 0, sb.setp 0 sb.m_bufsize, w1) := by
          unfold streambuf.overflow
          rw [if_pos hpend, hw]
          simp only [hn, if_false, hstage]
        rw [hs, ho]
        refine ⟨rfl, fun h => absurd h hpend, fun _ => htr, rfl, rfl, ?_, ?_, ?_, ?_, ?_⟩ <;>
          simp [streambuf.setp, streambuf.pending, h0]
  · have heq : sb.pptr = sb.pbase := by
      by_contra h; exact hpend h
    have hs : sb.sync abi os w = (.ret 0, sb, w) := by
      unfold streambuf.sync
      rw [if_neg hpend]
    have ho : sb.overflow abi os eof w = (.ret 0, sb.setp 0 sb.m_bufsize, w) := by
      unfold streambuf.overflow
      rw [if_neg hpend, hstage]
    rw [hs, ho]
    refine ⟨rfl, fun _ => rfl, fun h => absurd heq h, rfl, rfl, ?_, ?_, ?_, ?_, ?_⟩ <;>
      simp [streambuf.setp, streambuf.pending, heq, h0]

/-- C14, at a concrete input: two bytes pending, accepted by the OS: `sync`
returns 0, and so does `overflow` with eof. -/
theorem streambuf.sync_matches_overflow_eof_witness :
    (streambuf.pendingHi.overflow lp64 fullOs eof World.init).1 = .ret 0 :=
  (streambuf.sync_matches_overflow_eof lp64 fullOs streambuf.pendingHi World.init).2.2.2.2.2.2.1.mp
    (by decide)

/-! ## streambuf::underflow -/

/-- An immediate OS read that returns a count (not negative) ends `Stream::Read`
in either mode: the count, converted to `size_type`, is returned. -/
theorem Stream.Read_of_count (abi : Abi) (os : Os) (s : Stream) (buffer : List Byte)
    (bufsize : Nat) (w : World) (r : Reply)
    (hr : os.respond w.trace (.read s.m_sockFd bufsize) = r)
    (hbits : 1 ≤ abi.size_bits) (h0 : 0 ≤ r.ret) (h1 : r.ret < 2 ^ (abi.size_bits - 1)) :
    Stream.Read abi os s buffer bufsize w
      = (.ret r.ret, deposit buffer bufsize r,
          { trace := w.trace ++ [{ call := .read s.m_sockFd bufsize, reply := r }],
            errno := w.errno }) := by
  have hc := toSizeType_of_range abi r.ret hbits h0 h1
  have hn : ¬ r.ret < 0 := by omega
  by_cases ht : s.timeout < 0
  · simp [Stream.Read, syscall, ht, hr, hc, hn]
  · simp [Stream.Read, syscall, ht, hr, hc, hn]

theorem deposit_all_data (buffer : List Byte) (bufsize : Nat) (r : Reply)
    (h : r.data.length ≤ bufsize) :
    (deposit buffer bufsize r).take r.data.length = r.data ∧
      (0 < r.data.length → (deposit buffer bufsize r).getD 0 0 = r.data.getD 0 0) := by
  have ht : r.data.take bufsize = r.data := List.take_of_length_le h
  constructor
  · simp [deposit, ht]
  · intro hpos
    cases hd : r.data with
    | nil => simp [hd] at hpos
    | cons x xs =>
      rw [hd] at ht
      simp [deposit, hd, ht]

theorem ptrOffset_of_range (abi : Abi) (addr : Nat) (n : Int) (h0 : 0 ≤ n)
    (h1 : (addr : Int) + n < 2 ^ abi.size_bits) : ptrOffset abi addr n = n := by
  unfold ptrOffset
  rw [Int.emod_eq_of_lt (by omega) h1]
  ring

theorem ptrOffset_of_minus_one (abi : Abi) (addr : Nat) (h0 : 1 ≤ addr)
    (h1 : (addr : Int) < 2 ^ abi.size_bits) :
    ptrOffset abi addr (-1 + 2 ^ abi.size_bits) = -1 := by
  unfold ptrOffset
  have e : (addr : Int) + (-1 + 2 ^ abi.size_bits) = ((addr : Int) - 1) + 2 ^ abi.size_bits := by
    ring
  rw [e, Int.add_emod_self, Int.emod_eq_of_lt (by omega) (by omega)]
  ring

theorem deposit_length (buffer : List Byte) (bufsize : Nat) (r : Reply)
    (hbuf : buffer.length = bufsize) : (deposit buffer bufsize r).length = bufsize := by
  simp [deposit, List.length_take, List.length_drop]
  omega

/-- The intended case of `streambuf::underflow`: the first OS read delivers a
count of bytes that fits the buffer.  The get area is then exactly those bytes
and the result is the first of them. -/
theorem streambuf.underflow_of_count (abi : Abi) (os : Os) (sb : streambuf) (w : World)
    (r : Reply) (hr : os.respond w.trace (.read sb.m_stream.m_sockFd sb.m_bufsize) = r)
    (hbits : 1 ≤ abi.size_bits) (hpos : 0 < r.ret) (hlt : r.ret < 2 ^ (abi.size_bits - 1))
    (hlen : (r.data.length : Int) = r.ret) (hfit : r.data.length ≤ sb.m_bufsize)
    (hbuf : sb.m_buffer.length = sb.m_bufsize)
    (haddr : (sb.m_buffer_addr : Int) + sb.m_bufsize < 2 ^ abi.size_bits) :
    (sb.underflow abi os w).1 = .ret ((r.data.getD 0 0).val : Int) ∧
      (sb.underflow abi os w).2.1.getArea = some r.data ∧
      (sb.underflow abi os w).2.1.eback = 0 ∧
      (sb.underflow abi os w).2.1.gptr = 0 ∧
      (sb.underflow abi os w).2.1.egptr = r.ret := by
  have hrd := Stream.Read_of_count abi os sb.m_stream sb.m_buffer sb.m_bufsize w r hr hbits
    (le_of_lt hpos) hlt
  have hnle : ¬ r.ret ≤ 0 := by omega
  have hdep := deposit_all_data sb.m_buffer sb.m_bufsize r hfit
  have hdl := deposit_length sb.m_buffer sb.m_bufsize r hbuf
  have hnat : r.ret.toNat = r.data.length := by omega
  have hlpos : 0 < r.data.length := by omega
  have hoff : ptrOffset abi sb.m_buffer_addr r.ret = r.ret :=
    ptrOffset_of_range abi sb.m_buffer_addr r.ret (le_of_lt hpos) (by omega)
  have hle : r.ret ≤ ((deposit sb.m_buffer sb.m_bufsize r).length : Int) := by
    rw [hdl]; omega
  have hcast : ¬ r.ret ≤ ((0 : Nat) : Int) := by omega
  unfold streambuf.underflow
  rw [hrd]
  simp only [hnle, if_false, hoff, hdep.2 hlpos, true_and, and_true]
  simp only [streambuf.getArea, hcast, hle, if_false, if_true, List.drop_zero, Nat.cast_zero,
    sub_zero, hnat, hdep.1, hnle]

/-- C13 (the code departs from it): with `size_type` an unsigned type, in
blocking mode, when the OS read fails (negative result r), `Stream::Read`
yields the positive number r + 2 ^ size_bits and `streambuf::underflow` takes
it for a count: it does not return eof but the character at the start of the
buffer, which no read delivered, and sets the end of the get area to
`m_buffer + n`; for r = -1 that pointer lies one below the buffer, so the get
area is empty and is not "the n bytes read". -/
theorem streambuf.underflow_failed_read (abi : Abi) (os : Os) (sb : streambuf) (w : World)
    (r : Reply) (hr : os.respond w.trace (.read sb.m_stream.m_sockFd sb.m_bufsize) = r)
    (hunsigned : abi.size_type_signed = false) (ht : sb.m_stream.timeout < 0)
    (hneg : r.ret < 0) (hrange : -(2 ^ abi.size_bits) < r.ret) :
    (sb.underflow abi os w).1
        = .ret (((deposit sb.m_buffer sb.m_bufsize r).getD 0 0).val : Int) ∧
      (sb.underflow abi os w).1 ≠ .ret eof ∧
      (sb.underflow abi os w).2.2.trace
        = w.trace ++ [{ call := .read sb.m_stream.m_sockFd sb.m_bufsize, reply := r }] ∧
      (sb.underflow abi os w).2.1.egptr
        = ptrOffset abi sb.m_buffer_addr (r.ret + 2 ^ abi.size_bits) ∧
      (r.ret = -1 → 1 ≤ sb.m_buffer_addr → (sb.m_buffer_addr : Int) < 2 ^ abi.size_bits →
        (sb.underflow abi os w).2.1.egptr = -1 ∧
        (sb.underflow abi os w).2.1.getArea = some []) := by
  have hw := wrapUnsigned_of_neg _ _ hneg hrange
  have hc : toSizeType abi r.ret = r.ret + 2 ^ abi.size_bits := by
    simp [toSizeType, hunsigned, hw]
  have hn : ¬ r.ret + 2 ^ abi.size_bits < 0 := by linarith
  have hnle : ¬ r.ret + 2 ^ abi.size_bits ≤ 0 := by linarith
  have hrd : Stream.Read abi os sb.m_stream sb.m_buffer sb.m_bufsize w
      = (.ret (r.ret + 2 ^ abi.size_bits), deposit sb.m_buffer sb.m_bufsize r,
          (syscall os (.read sb.m_stream.m_sockFd sb.m_bufsize) w).2) := by
    simp [Stream.Read, syscall, ht, hr, hc, hn]
  have hu : sb.underflow abi os w
      = (.ret (((deposit sb.m_buffer sb.m_bufsize r).getD 0 0).val : Int),
          { sb with m_buffer := deposit sb.m_buffer sb.m_bufsize r, eback := 0, gptr := 0,
                    egptr := ptrOffset abi sb.m_buffer_addr (r.ret + 2 ^ abi.size_bits) },
          (syscall os (.read sb.m_stream.m_sockFd sb.m_bufsize) w).2) := by
    unfold streambuf.underflow
    rw [hrd]
    simp only [hnle, if_false]
  rw [hu]
  refine ⟨rfl, ?_, ?_, rfl, ?_⟩
  · intro h
    exact byte_ne_eof _ (Outcome.ret.inj h)
  · simp [syscall, hr]
  · intro hm1 ha0 ha1
    have hoff : ptrOffset abi sb.m_buffer_addr (r.ret + 2 ^ abi.size_bits) = -1 := by
      rw [hm1]; exact ptrOffset_of_minus_one abi sb.m_buffer_addr ha0 ha1
    simp [streambuf.getArea, hoff]

/-- C13, at a concrete input: a blocking adapter with a zero-filled buffer of
four characters on the 64-bit target; the OS read fails with -1 (connection
reset).  `underflow` returns the character 0 instead of eof. -/
theorem streambuf.underflow_failed_read_witness :
    (streambuf.underflow lp64 (constOs { ret := -1, errno := 104, data := [] })
        (streambuf.fresh { m_sockFd := 3, timeout := -1 } 4) World.init).1 = .ret 0 ∧
      (streambuf.underflow lp64 (constOs { ret := -1, errno := 104, data := [] })
        (streambuf.fresh { m_sockFd := 3, timeout := -1 } 4) World.init).1 ≠ .ret eof :=
  ⟨by
    rw [(streambuf.underflow_failed_read lp64 (constOs { ret := -1, errno := 104, data := [] })
      (streambuf.fresh { m_sockFd := 3, timeout := -1 } 4) World.init
      { ret := -1, errno := 104, data := [] } rfl rfl (by decide) (by decide) (by decide)).1]
    decide,
   (streambuf.underflow_failed_read lp64 (constOs { ret := -1, errno := 104, data := [] })
      (streambuf.fresh { m_sockFd := 3, timeout := -1 } 4) World.init
      { ret := -1, errno := 104, data := [] } rfl rfl (by decide) (by decide) (by decide)).2.1⟩

/-! ## The put side across an underflow -/

/-- C19 (the code departs from it): in bounded mode (timeout > 0), when the
first OS read fails with `EAGAIN`, the poll reports the descriptor ready and
the retried OS read fails (negative result, whatever the error), `Stream::Read`
throws nothing: the result of the retry is returned unchecked, converted to
`size_type`, so the caller is handed a value where the claim promises the
transport exception. -/
theorem Stream.Read_retry_error_returned (abi : Abi) (os : Os) (s : Stream)
    (buffer : List Byte) (bufsize : Nat) (w : World) (r1 p r2 : Reply)
    (ht : 0 < s.timeout)
    (hr1 : os.respond w.trace (.read s.m_sockFd bufsize) = r1)
    (hneg : r1.ret < 0) (herr : r1.errno = EAGAIN)
    (hp : os.respond (w.trace ++ [{ call := .read s.m_sockFd bufsize, reply := r1 }])
      (.poll s.m_sockFd POLLIN s.timeout) = p)
    (hready : 0 < p.ret)
    (hr2 : os.respond (w.trace ++ [{ call := .read s.m_sockFd bufsize, reply := r1 },
        { call := .poll s.m_sockFd POLLIN s.timeout, reply := p }])
      (.read s.m_sockFd bufsize) = r2)
    (hfail : r2.ret < 0) :
    (Stream.Read abi os s buffer bufsize w).1 = .ret (toSizeType abi r2.ret) ∧
      (Stream.Read abi os s buffer bufsize w).1.isException = false ∧
      (abi.size_type_signed = false →
        (Stream.Read abi os s buffer bufsize w).1 = .ret (wrapUnsigned abi.size_bits r2.ret) ∧
        0 ≤ wrapUnsigned abi.size_bits r2.ret) ∧
      (abi.size_type_signed = true → 1 ≤ abi.size_bits →
        -(2 ^ (abi.size_bits - 1)) ≤ r2.ret →
        (Stream.Read abi os s buffer bufsize w).1 = .ret r2.ret) := by
  have ht0 : ¬ s.timeout < 0 := by omega
  have ht1 : ¬ s.timeout = 0 := by omega
  have hp0 : ¬ p.ret < 0 := by omega
  have hp1 : ¬ p.ret = 0 := by omega
  have hres : (Stream.Read abi os s buffer bufsize w).1 = .ret (toSizeType abi r2.ret) := by
    simp [Stream.Read, syscall, ht0, ht1, hr1, hneg, herr, hp, hp0, hp1, hr2]
  refine ⟨hres, by rw [hres]; rfl, ?_, ?_⟩
  · intro hu
    rw [hres]
    exact ⟨by simp [toSizeType, hu], wrapUnsigned_nonneg _ _⟩
  · intro hs hbits hrange
    rw [hres]
    have hpz : (0 : Int) < 2 ^ (abi.size_bits - 1) := by positivity
    simp only [toSizeType, hs, if_true]
    rw [wrapSigned_of_range _ _ hbits hrange (by linarith)]

/-- C19, at a concrete input: timeout 100 ms; the first read finds nothing, the
poll answers 1, the retried read fails with -1 (connection reset): on the
64-bit target `Stream::Read` returns 2^64 - 1. -/
theorem Stream.Read_retry_error_returned_witness :
    (Stream.Read lp64
        (scriptOs [{ ret := -1, errno := EAGAIN, data := [] }, { ret := 1, errno := 0, data := [] }]
          { ret := -1, errno := 104, data := [] })
        { m_sockFd := 3, timeout := 100 } [0, 0] 2 World.init).1 = .ret 18446744073709551615 := by
  have h := (Stream.Read_retry_error_returned lp64
    (scriptOs [{ ret := -1, errno := EAGAIN, data := [] }, { ret := 1, errno := 0, data := [] }]
      { ret := -1, errno := 104, data := [] })
    { m_sockFd := 3, timeout := 100 } [0, 0] 2 World.init
    { ret := -1, errno := EAGAIN, data := [] } { ret := 1, errno := 0, data := [] }
    { ret := -1, errno := 104, data := [] }
    (by decide) rfl (by decide) rfl rfl (by decide) rfl (by decide)).1
  rw [h]
  decide

/-- C20: `Stream::Read` calls the readiness poll if and only if timeout > 0 and
the immediate OS read failed with `EAGAIN`, and then exactly once, right after
that read; in every other case the immediate read is the only system call (no
poll, no second read); and an immediate read that returned a count n >= 0 is
returned to the caller as n. -/
theorem Stream.Read_poll_iff (abi : Abi) (os : Os) (s : Stream)
    (buffer : List Byte) (bufsize : Nat) (w : World) (r1 : Reply)
    (hr1 : os.respond w.trace (.read s.m_sockFd bufsize) = r1) :
    (pollCount (Stream.Read abi os s buffer bufsize w).2.2.trace = pollCount w.trace + 1 ↔
        (0 < s.timeout ∧ r1.ret < 0 ∧ r1.errno = EAGAIN)) ∧
      ((0 < s.timeout ∧ r1.ret < 0 ∧ r1.errno = EAGAIN) →
        ∃ rest : List Event,
          (Stream.Read abi os s buffer bufsize w).2.2.trace
            = w.trace ++ [{ call := .read s.m_sockFd bufsize, reply := r1 },
                { call := .poll s.m_sockFd POLLIN s.timeout,
                  reply := os.respond
                    (w.trace ++ [{ call := .read s.m_sockFd bufsize, reply := r1 }])
                    (.poll s.m_sockFd POLLIN s.timeout) }] ++ rest ∧
          pollCount rest = 0) ∧
      (¬ (0 < s.timeout ∧ r1.ret < 0 ∧ r1.errno = EAGAIN) →
        (Stream.Read abi os s buffer bufsize w).2.2.trace
          = w.trace ++ [{ call := .read s.m_sockFd bufsize, reply := r1 }]) ∧
      (1 ≤ abi.size_bits → 0 ≤ r1.ret → r1.ret < 2 ^ (abi.size_bits - 1) →
        (Stream.Read abi os s buffer bufsize w).1 = .ret r1.ret) := by
  refine ⟨?_, ?_, ?_, ?_⟩
  · unfold Stream.Read syscall
    simp only [hr1]
    split_ifs <;>
      simp [pollCount_append, pollCount] <;> omega
  · rintro ⟨ht, hneg, herr⟩
    have ht0 : ¬ s.timeout < 0 := by omega
    have ht1 : ¬ s.timeout = 0 := by omega
    obtain ⟨p, hp⟩ : ∃ p, os.respond
        (w.trace ++ [{ call := .read s.m_sockFd bufsize, reply := r1 }])
        (.poll s.m_sockFd POLLIN s.timeout) = p := ⟨_, rfl⟩
    rw [hp]
    by_cases hp0 : p.ret < 0
    · refine ⟨[], ?_, rfl⟩
      simp [Stream.Read, syscall, hr1, ht0, ht1, hneg, herr, hp, hp0]
    · by_cases hp1 : p.ret = 0
      · refine ⟨[], ?_, rfl⟩
        simp [Stream.Read, syscall, hr1, ht0, ht1, hneg, herr, hp, hp1]
      · refine ⟨[{ call := .read s.m_sockFd bufsize,
                   reply := os.respond
                     (w.trace ++ [{ call := .read s.m_sockFd bufsize, reply := r1 },
                       { call := .poll s.m_sockFd POLLIN s.timeout, reply := p }])
                     (.read s.m_sockFd bufsize) }], ?_, by simp [pollCount]⟩
        simp [Stream.Read, syscall, hr1, ht0, ht1, hneg, herr, hp, hp0, hp1]
  · intro hno
    unfold Stream.Read syscall
    simp only [hr1]
    split_ifs <;> first | rfl | (exfalso; apply hno; refine ⟨?_, ?_, ?_⟩ <;> first | assumption | omega)
  · intro hbits h0 h1
    rw [Stream.Read_of_count abi os s buffer bufsize w r1 hr1 hbits h0 h1]

/-- C20, at a concrete input: timeout 100 ms and an immediate read that
delivers 2 bytes: no poll, and 2 is returned. -/
theorem Stream.Read_poll_iff_witness :
    (Stream.Read lp64 (constOs { ret := 2, errno := 0, data := [104, 105] })
        { m_sockFd := 3, timeout := 100 } [0, 0] 2 World.init).1 = .ret 2 :=
  (Stream.Read_poll_iff lp64 (constOs { ret := 2, errno := 0, data := [104, 105] })
    { m_sockFd := 3, timeout := 100 } [0, 0] 2 World.init
    { ret := 2, errno := 0, data := [104, 105] } rfl).2.2.2 (by decide) (by decide) (by decide)

/-! ## Socket::saveflags -/

theorem flagsAfter_append_setfl (fd : Int) (a : Int) (r : Reply) (xs : List Event) (f0 : Int)
    (hok : 0 ≤ r.ret) :
    flagsAfter fd f0 (xs ++ [{ call := .fcntl_setfl fd a, reply := r }]) = a := by
  induction xs generalizing f0 with
  | nil => simp [flagsAfter, hok]
  | cons e es ih => simp only [List.cons_append, flagsAfter]; exact ih _

/-- C15: if the flags of the descriptor cannot be read (`F_GETFL` answers a
negative value), the constructor of `Socket::saveflags` throws the transport
exception and the scope is not entered.  Otherwise the object holds the flags
read, and whatever world the scope leaves behind, and whether the body
returned or threw, the destructor makes exactly one call, `F_SETFL` on the
same descriptor with the flags captured; when the OS carries that call out,
the flags of the descriptor are the captured ones, whatever calls changed
them during the scope. -/
theorem Socket.saveflags.restores (os : Os) (fd : Int) (w : World) (g : Reply)
    (hg : os.respond w.trace (.fcntl_getfl fd) = g) :
    (g.ret < 0 →
      (Socket.saveflags.construct os fd w).1.isException = true ∧
      ∀ (body : World → Outcome Unit × World),
        (Socket.saveflags.inScope os fd body w).1.isException = true ∧
        (Socket.saveflags.inScope os fd body w).2.trace
          = w.trace ++ [{ call := .fcntl_getfl fd, reply := g }]) ∧
    (0 ≤ g.ret →
      (Socket.saveflags.construct os fd w).1 = .ret { fd := fd, flags := g.ret } ∧
      (Socket.saveflags.construct os fd w).2.trace
        = w.trace ++ [{ call := .fcntl_getfl fd, reply := g }] ∧
      (∀ (body : World → Outcome Unit × World),
        (Socket.saveflags.inScope os fd body w).1
          = (body (Socket.saveflags.construct os fd w).2).1 ∧
        (Socket.saveflags.inScope os fd body w).2
          = Socket.saveflags.destruct os { fd := fd, flags := g.ret }
              (body (Socket.saveflags.construct os fd w).2).2) ∧
      (∀ w2 : World,
        (Socket.saveflags.destruct os { fd := fd, flags := g.ret } w2).trace
          = w2.trace ++ [{ call := .fcntl_setfl fd g.ret,
                           reply := os.respond w2.trace (.fcntl_setfl fd g.ret) }] ∧
        (0 ≤ (os.respond w2.trace (.fcntl_setfl fd g.ret)).ret →
          ∀ f0 : Int,
            flagsAfter fd f0
              (Socket.saveflags.destruct os { fd := fd, flags := g.ret } w2).trace = g.ret))) := by
  constructor
  · intro hneg
    have hc : (Socket.saveflags.construct os fd w)
        = (.throw (Exception os (syscall os (.fcntl_getfl fd) w).2
            (os.strerror (syscall os (.fcntl_getfl fd) w).2.errno)),
          (syscall os (.fcntl_getfl fd) w).2) := by
      simp [Socket.saveflags.construct, syscall, hg, hneg]
    refine ⟨by rw [hc]; rfl, fun body => ?_⟩
    unfold Socket.saveflags.inScope
    rw [hc]
    exact ⟨rfl, by simp [syscall, hg]⟩
  · intro hok
    have hn : ¬ g.ret < 0 := by omega
    have hc : (Socket.saveflags.construct os fd w)
        = (.ret { fd := fd, flags := g.ret }, (syscall os (.fcntl_getfl fd) w).2) := by
      simp [Socket.saveflags.construct, syscall, hg, hn]
    refine ⟨by rw [hc], by rw [hc]; simp [syscall, hg], fun body => ?_, fun w2 => ?_⟩
    · unfold Socket.saveflags.inScope
      rw [hc]
      exact ⟨rfl, rfl⟩
    · have hd : (Socket.saveflags.destruct os { fd := fd, flags := g.ret } w2).trace
          = w2.trace ++ [{ call := .fcntl_setfl fd g.ret,
                           reply := os.respond w2.trace (.fcntl_setfl fd g.ret) }] := by
        simp [Socket.saveflags.destruct, syscall, hok]
      refine ⟨hd, fun hset f0 => ?_⟩
      rw [hd]
      exact flagsAfter_append_setfl fd g.ret _ w2.trace f0 hset

/-- C15, at a concrete input: descriptor 3 has flags 2; the body of the scope
switches it to non-blocking and throws; after the scope the flags are 2. -/
theorem Socket.saveflags.restores_witness :
    flagsAfter 3 2
      (Socket.saveflags.inScope (constOs { ret := 2, errno := 0, data := [] }) 3
        (fun w1 => ((.throw .Timeout : Outcome Unit),
          (syscall (constOs { ret := 2, errno := 0, data := [] })
            (.fcntl_setfl 3 O_NONBLOCK) w1).2))
        World.init).2.trace = 2 := by
  have h := (Socket.saveflags.restores (constOs { ret := 2, errno := 0, data := [] }) 3
    World.init { ret := 2, errno := 0, data := [] } rfl).2 (by decide)
  rw [(h.2.2.1 _).2]
  exact (h.2.2.2 _).2 (by decide) 2

/-! ## Server::Listen -/

/-- C17 as stated fails on the order of the steps: `Server::Listen` sets the
reuse option BEFORE it binds.  When every step succeeds the calls are resolve,
setsockopt, bind, listen; and when setting the option fails, the run stops
there without any bind having been made. -/
theorem Server.Listen_order_counterexample :
    calls (Server.Listen (constOs { ret := 1, errno := 0, data := [127, 0, 0, 1] })
        { m_sockFd := 4 } "localhost" 80 5 World.init).2.trace
      = [.gethostbyname "localhost", .setsockopt_reuseaddr 4 1, .bind 4 [127, 0, 0, 1] 80,
          .listen 4 5] ∧
    calls (Server.Listen (constOs { ret := 1, errno := 0, data := [127, 0, 0, 1] })
        { m_sockFd := 4 } "localhost" 80 5 World.init).2.trace
      ≠ [.gethostbyname "localhost", .bind 4 [127, 0, 0, 1] 80, .setsockopt_reuseaddr 4 1,
          .listen 4 5] ∧
    calls (Server.Listen
        (scriptOs [{ ret := 1, errno := 0, data := [127, 0, 0, 1] }]
          { ret := -1, errno := 13, data := [] })
        { m_sockFd := 4 } "localhost" 80 5 World.init).2.trace
      = [.gethostbyname "localhost", .setsockopt_reuseaddr 4 1] ∧
    (Server.Listen
        (scriptOs [{ ret := 1, errno := 0, data := [127, 0, 0, 1] }]
          { ret := -1, errno := 13, data := [] })
        { m_sockFd := 4 } "localhost" 80 5 World.init).1
      = .throw (.Exception 13 "error in setsockopt: error") := by
  refine ⟨by decide, by decide, by decide, by decide⟩

/-- C17, amended: `Server::Listen` resolves the address, sets the socket reuse
option, binds and starts listening, in that order, stopping at the first
failing step; it throws the transport exception if and only if resolution,
setting the option, bind or listen fails; the message of a resolution failure
starts with "invalid ipaddress " followed by the given address, and those of
the OS failures start with "error in setsockopt", "error in bind" and
"error in listen". -/
theorem Server.Listen_spec (os : Os) (srv : Socket) (ipaddr : String) (port : Nat)
    (backlog : Int) (w : World) (h o b l : Reply)
    (hh : os.respond w.trace (.gethostbyname ipaddr) = h)
    (ho : os.respond (w.trace ++ [{ call := .gethostbyname ipaddr, reply := h }])
      (.setsockopt_reuseaddr srv.m_sockFd 1) = o)
    (hb : os.respond (w.trace ++ [{ call := .gethostbyname ipaddr, reply := h },
        { call := .setsockopt_reuseaddr srv.m_sockFd 1, reply := o }])
      (.bind srv.m_sockFd h.data port) = b)
    (hl : os.respond (w.trace ++ [{ call := .gethostbyname ipaddr, reply := h },
        { call := .setsockopt_reuseaddr srv.m_sockFd 1, reply := o },
        { call := .bind srv.m_sockFd h.data port, reply := b }])
      (.listen srv.m_sockFd backlog) = l) :
    (h.ret = 0 →
      (Server.Listen os srv ipaddr port backlog w).1
        = .throw (.Exception w.errno
            ("invalid ipaddress " ++ ipaddr ++ ": " ++ os.strerror w.errno)) ∧
      (Server.Listen os srv ipaddr port backlog w).2.trace
        = w.trace ++ [{ call := .gethostbyname ipaddr, reply := h }]) ∧
    (h.ret ≠ 0 → o.ret < 0 →
      (Server.Listen os srv ipaddr port backlog w).1
        = .throw (.Exception o.errno ("error in setsockopt" ++ ": " ++ os.strerror o.errno)) ∧
      (Server.Listen os srv ipaddr port backlog w).2.trace
        = w.trace ++ [{ call := .gethostbyname ipaddr, reply := h },
            { call := .setsockopt_reuseaddr srv.m_sockFd 1, reply := o }]) ∧
    (h.ret ≠ 0 → 0 ≤ o.ret → b.ret < 0 →
      (Server.Listen os srv ipaddr port backlog w).1
        = .throw (.Exception b.errno ("error in bind" ++ ": " ++ os.strerror b.errno)) ∧
      (Server.Listen os srv ipaddr port backlog w).2.trace
        = w.trace ++ [{ call := .gethostbyname ipaddr, reply := h },
            { call := .setsockopt_reuseaddr srv.m_sockFd 1, reply := o },
            { call := .bind srv.m_sockFd h.data port, reply := b }]) ∧
    (h.ret ≠ 0 → 0 ≤ o.ret → 0 ≤ b.ret →
      (Server.Listen os srv ipaddr port backlog w).2.trace
        = w.trace ++ [{ call := .gethostbyname ipaddr, reply := h },
            { call := .setsockopt_reuseaddr srv.m_sockFd 1, reply := o },
            { call := .bind srv.m_sockFd h.data port, reply := b },
            { call := .listen srv.m_sockFd backlog, reply := l }] ∧
      (l.ret < 0 →
        (Server.Listen os srv ipaddr port backlog w).1
          = .throw (.Exception l.errno ("error in listen" ++ ": " ++ os.strerror l.errno))) ∧
      (0 ≤ l.ret → (Server.Listen os srv ipaddr port backlog w).1 = .ret ())) ∧
    ((Server.Listen os srv ipaddr port backlog w).1.isException = true ↔
      (h.ret = 0 ∨ o.ret < 0 ∨ b.ret < 0 ∨ l.ret < 0)) := by
  by_cases h0 : h.ret = 0
  · have hres : Server.Listen os srv ipaddr port backlog w
        = (.throw (.Exception w.errno
            ("invalid ipaddress " ++ ipaddr ++ ": " ++ os.strerror w.errno)),
          { trace := w.trace ++ [{ call := .gethostbyname ipaddr, reply := h }],
            errno := w.errno }) := by
      simp [Server.Listen, syscall, hh, h0, Exception]
    rw [hres]
    refine ⟨fun _ => ⟨rfl, rfl⟩, fun hn => absurd h0 hn, fun hn => absurd h0 hn,
      fun hn => absurd h0 hn, ?_⟩
    simp [Outcome.isException, h0]
  · by_cases ho0 : o.ret < 0
    · have hres : Server.Listen os srv ipaddr port backlog w
          = (.throw (.Exception o.errno
              ("error in setsockopt" ++ ": " ++ os.strerror o.errno)),
            { trace := w.trace ++ [{ call := .gethostbyname ipaddr, reply := h },
                { call := .setsockopt_reuseaddr srv.m_sockFd 1, reply := o }],
              errno := o.errno }) := by
        simp [Server.Listen, syscall, hh, h0, ho, ho0, Exception]
      rw [hres]
      refine ⟨fun hz => absurd hz h0, fun _ _ => ⟨rfl, rfl⟩, fun _ hn => ?_, fun _ hn => ?_, ?_⟩
      · omega
      · omega
      · simp [Outcome.isException, ho0]
    · by_cases hb0 : b.ret < 0
      · have hres : Server.Listen os srv ipaddr port backlog w
            = (.throw (.Exception b.errno ("error in bind" ++ ": " ++ os.strerror b.errno)),
              { trace := w.trace ++ [{ call := .gethostbyname ipaddr, reply := h },
                  { call := .setsockopt_reuseaddr srv.m_sockFd 1, reply := o },
                  { call := .bind srv.m_sockFd h.data port, reply := b }],
                errno := b.errno }) := by
          simp [Server.Listen, syscall, hh, h0, ho, ho0, hb, hb0, Exception]
        rw [hres]
        refine ⟨fun hz => absurd hz h0, fun _ hn => absurd hn ho0, fun _ _ _ => ⟨rfl, rfl⟩,
          fun _ _ hn => ?_, ?_⟩
        · omega
        · simp [Outcome.isException, hb0]
      · by_cases hl0 : l.ret < 0
        · have hres : Server.Listen os srv ipaddr port backlog w
              = (.throw (.Exception l.errno
                  ("error in listen" ++ ": " ++ os.strerror l.errno)),
                { trace := w.trace ++ [{ call := .gethostbyname ipaddr, reply := h },
                    { call := .setsockopt_reuseaddr srv.m_sockFd 1, reply := o },
                    { call := .bind srv.m_sockFd h.data port, reply := b },
                    { call := .listen srv.m_sockFd backlog, reply := l }],
                  errno := l.errno }) := by
            simp [Server.Listen, syscall, hh, h0, ho, ho0, hb, hb0, hl, hl0, Exception]
          rw [hres]
          refine ⟨fun hz => absurd hz h0, fun _ hn => absurd hn ho0,
            fun _ _ hn => absurd hn hb0, fun _ _ _ => ⟨rfl, fun _ => rfl, fun hn => ?_⟩, ?_⟩
          · omega
          · simp [Outcome.isException, hl0]
        · have hres : (Server.Listen os srv ipaddr port backlog w).1 = .ret () := by
            simp [Server.Listen, syscall, hh, h0, ho, ho0, hb, hb0, hl, hl0]
          have htr : (Server.Listen os srv ipaddr port backlog w).2.trace
              = w.trace ++ [{ call := .gethostbyname ipaddr, reply := h },
                  { call := .setsockopt_reuseaddr srv.m_sockFd 1, reply := o },
                  { call := .bind srv.m_sockFd h.data port, reply := b },
                  { call := .listen srv.m_sockFd backlog, reply := l }] := by
            simp [Server.Listen, syscall, hh, h0, ho, ho0, hb, hb0, hl, hl0]
          rw [hres, htr]
          refine ⟨fun hz => absurd hz h0, fun _ hn => absurd hn ho0,
            fun _ _ hn => absurd hn hb0,
            fun _ _ _ => ⟨rfl, fun hn => absurd hn hl0, fun _ => rfl⟩, ?_⟩
          simp [Outcome.isException, h0, ho0, hb0, hl0]

/-- C17, amended, at a concrete input: the name does not resolve; the message
starts with "invalid ipaddress " and the name. -/
theorem Server.Listen_spec_witness :
    (Server.Listen (constOs { ret := 0, errno := 0, data := [] }) { m_sockFd := 4 }
        "nowhere" 80 5 World.init).1
      = .throw (.Exception 0 "invalid ipaddress nowhere: error") := by
  have h := ((Server.Listen_spec (constOs { ret := 0, errno := 0, data := [] }) { m_sockFd := 4 }
    "nowhere" 80 5 World.init { ret := 0, errno := 0, data := [] }
    { ret := 0, errno := 0, data := [] } { ret := 0, errno := 0, data := [] }
    { ret := 0, errno := 0, data := [] } rfl rfl rfl rfl).1 rfl).1
  rw [h]
  decide

/-! ## Stream::Accept and Stream::Connect -/

theorem socketCount_append (xs ys : List Event) :
    socketCount (xs ++ ys) = socketCount xs + socketCount ys := by
  induction xs with
  | nil => simp [socketCount]
  | cons e es ih => simp [socketCount, ih]; omega

theorem Stream.setTimeout_open (os : Os) (s : Stream) (t : Int) (w : World)
    (h : 0 ≤ s.m_sockFd) :
    Stream.setTimeout os s t w
      = (.ret (), { s with timeout := t },
          (syscall os (.fcntl_setfl s.m_sockFd (if 0 ≤ t then O_NONBLOCK else 0)) w).2) := by
  simp [Stream.setTimeout, h]

theorem Stream.Accept_eq (os : Os) (s : Stream) (server : Socket) (w : World) :
    Stream.Accept os s server w
      = (if (os.respond (Socket.close os s.toSocket w).2.2.trace
              (.accept server.m_sockFd)).ret < 0 then
          (.throw (Exception os
              (syscall os (.accept server.m_sockFd) (Socket.close os s.toSocket w).2.2).2
              "error in accept"),
            { s with m_sockFd := (os.respond (Socket.close os s.toSocket w).2.2.trace
                (.accept server.m_sockFd)).ret },
            (syscall os (.accept server.m_sockFd) (Socket.close os s.toSocket w).2.2).2)
        else
          Stream.setTimeout os
            { s with m_sockFd := (os.respond (Socket.close os s.toSocket w).2.2.trace
                (.accept server.m_sockFd)).ret }
            s.timeout
            (syscall os (.accept server.m_sockFd) (Socket.close os s.toSocket w).2.2).2) := by
  have hc := Socket.close_returns os s.toSocket w
  unfold Stream.Accept
  rcases hcl : Socket.close os s.toSocket w with ⟨o, s1, w1⟩
  rw [hcl] at hc
  simp only at hc
  subst hc
  simp [syscall, Socket.bad]

theorem Stream.Connect_resolved_spec (os : Os) (s : Stream) (ipaddr : String) (port : Nat)
    (w : World) :
    socketCount (Stream.Connect_resolved os s ipaddr port w).2.2.trace = socketCount w.trace ∧
      ((Stream.Connect_resolved os s ipaddr port w).1 = .ret () → 0 ≤ s.m_sockFd →
        (Stream.Connect_resolved os s ipaddr port w).2.1 = s ∧
        ∃ (pre : List Event) (addr : List Byte) (c r : Reply),
          0 ≤ c.ret ∧
          (Stream.Connect_resolved os s ipaddr port w).2.2.trace
            = pre ++ [{ call := .connect s.m_sockFd addr port, reply := c },
                { call := .fcntl_setfl s.m_sockFd (if 0 ≤ s.timeout then O_NONBLOCK else 0),
                  reply := r }]) := by
  obtain ⟨h, hh⟩ : ∃ h, os.respond w.trace (.gethostbyname ipaddr) = h := ⟨_, rfl⟩
  obtain ⟨c, hc⟩ : ∃ c, os.respond (w.trace ++ [{ call := .gethostbyname ipaddr, reply := h }])
      (.connect s.m_sockFd h.data port) = c := ⟨_, rfl⟩
  by_cases h0 : h.ret = 0
  · simp [Stream.Connect_resolved, syscall, hh, h0, socketCount_append, socketCount]
  · by_cases hc0 : c.ret < 0
    · simp [Stream.Connect_resolved, syscall, hh, h0, hc, hc0, socketCount_append, socketCount]
    · by_cases hfd : 0 ≤ s.m_sockFd
      · have hres : Stream.Connect_resolved os s ipaddr port w
            = Stream.setTimeout os s s.timeout
                (syscall os (.connect s.m_sockFd h.data port)
                  (syscall os (.gethostbyname ipaddr) w).2).2 := by
          simp [Stream.Connect_resolved, syscall, hh, h0, hc, hc0]
        rw [hres, Stream.setTimeout_open os s s.timeout _ hfd]
        refine ⟨by simp [syscall, hh, hc, socketCount_append, socketCount], fun _ _ => ⟨rfl, ?_⟩⟩
        refine ⟨w.trace ++ [{ call := .gethostbyname ipaddr, reply := h }], h.data, c,
          os.respond (w.trace ++ [{ call := .gethostbyname ipaddr, reply := h },
              { call := .connect s.m_sockFd h.data port, reply := c }])
            (.fcntl_setfl s.m_sockFd (if 0 ≤ s.timeout then O_NONBLOCK else 0)),
          by omega, ?_⟩
        simp [syscall, hh, hc]
      · refine ⟨?_, fun _ hn => absurd hn hfd⟩
        simp [Stream.Connect_resolved, Stream.setTimeout, syscall, hh, h0, hc, hc0, hfd,
          socketCount_append, socketCount]

/-- What a successful `Stream::Accept` or `Stream::Connect` has done: `Accept`
closes, accepts and applies the timeout to the accepted descriptor; `Connect`
makes the OS socket call exactly when no descriptor is open and applies the
timeout after the OS connect. -/
theorem Stream.Accept_Connect_on_success (os : Os) (s : Stream) (server : Socket)
    (ipaddr : String) (port : Nat) (w : World) :
    (0 ≤ s.m_sockFd → (Socket.close os s.toSocket w).2.2.trace
        = w.trace ++ [{ call := .close s.m_sockFd,
                        reply := os.respond w.trace (.close s.m_sockFd) }]) ∧
      (∃ rest : List Event, (Stream.Accept os s server w).2.2.trace
        = (Socket.close os s.toSocket w).2.2.trace
          ++ [{ call := .accept server.m_sockFd,
                reply := os.respond (Socket.close os s.toSocket w).2.2.trace
                  (.accept server.m_sockFd) }] ++ rest) ∧
      ((Stream.Accept os s server w).1 = .ret () →
        (Stream.Accept os s server w).2.1.timeout = s.timeout ∧
        0 ≤ (Stream.Accept os s server w).2.1.m_sockFd ∧
        (Stream.Accept os s server w).2.1.m_sockFd
          = (os.respond (Socket.close os s.toSocket w).2.2.trace
              (.accept server.m_sockFd)).ret ∧
        ∃ r : Reply, (Stream.Accept os s server w).2.2.trace
          = (Socket.close os s.toSocket w).2.2.trace
            ++ [{ call := .accept server.m_sockFd,
                  reply := os.respond (Socket.close os s.toSocket w).2.2.trace
                    (.accept server.m_sockFd) },
                { call := .fcntl_setfl (Stream.Accept os s server w).2.1.m_sockFd
                    (if 0 ≤ s.timeout then O_NONBLOCK else 0),
                  reply := r }]) ∧
      (flagsNonBlocking (if 0 ≤ s.timeout then O_NONBLOCK else 0) = true ↔ 0 ≤ s.timeout) ∧
      (0 ≤ s.m_sockFd →
        socketCount (Stream.Connect os s ipaddr port w).2.2.trace = socketCount w.trace) ∧
      (s.m_sockFd < 0 →
        socketCount (Stream.Connect os s ipaddr port w).2.2.trace = socketCount w.trace + 1) ∧
      ((Stream.Connect os s ipaddr port w).1 = .ret () →
        (Stream.Connect os s ipaddr port w).2.1.timeout = s.timeout ∧
        0 ≤ (Stream.Connect os s ipaddr port w).2.1.m_sockFd ∧
        ∃ (pre : List Event) (addr : List Byte) (c r : Reply),
          0 ≤ c.ret ∧
          (Stream.Connect os s ipaddr port w).2.2.trace
            = pre ++ [{ call := .connect (Stream.Connect os s ipaddr port w).2.1.m_sockFd
                          addr port,
                        reply := c },
                { call := .fcntl_setfl (Stream.Connect os s ipaddr port w).2.1.m_sockFd
                    (if 0 ≤ s.timeout then O_NONBLOCK else 0),
                  reply := r }]) := by
  have hflags : flagsNonBlocking (if 0 ≤ s.timeout then O_NONBLOCK else 0) = true
      ↔ 0 ≤ s.timeout := by
    by_cases ht : 0 ≤ s.timeout
    · simp [ht, flagsNonBlocking, O_NONBLOCK]
    · simp [ht, flagsNonBlocking, O_NONBLOCK]
  refine ⟨fun h => by rw [Socket.close_open os s.toSocket w h], ?_, ?_, hflags, ?_, ?_, ?_⟩
  · obtain ⟨a, hae⟩ : ∃ a, os.respond (Socket.close os s.toSocket w).2.2.trace
        (.accept server.m_sockFd) = a := ⟨_, rfl⟩
    rw [Stream.Accept_eq, hae]
    by_cases ha : a.ret < 0
    · rw [if_pos ha]
      exact ⟨[], by simp [syscall, hae]⟩
    · have hopen : (0 : Int) ≤ a.ret := by omega
      rw [if_neg ha, Stream.setTimeout_open os { s with m_sockFd := a.ret } s.timeout _ hopen]
      exact ⟨[{ call := .fcntl_setfl a.ret (if 0 ≤ s.timeout then O_NONBLOCK else 0),
                reply := os.respond
                  ((Socket.close os s.toSocket w).2.2.trace
                    ++ [{ call := .accept server.m_sockFd, reply := a }])
                  (.fcntl_setfl a.ret (if 0 ≤ s.timeout then O_NONBLOCK else 0)) }],
        by simp [syscall, hae]⟩
  · obtain ⟨a, hae⟩ : ∃ a, os.respond (Socket.close os s.toSocket w).2.2.trace
        (.accept server.m_sockFd) = a := ⟨_, rfl⟩
    rw [Stream.Accept_eq, hae]
    intro hret
    by_cases ha : a.ret < 0
    · rw [if_pos ha] at hret
      simp at hret
    · have hopen : (0 : Int) ≤ a.ret := by omega
      rw [if_neg ha, Stream.setTimeout_open os { s with m_sockFd := a.ret } s.timeout _ hopen]
      refine ⟨rfl, hopen, rfl,
        os.respond
          ((Socket.close os s.toSocket w).2.2.trace
            ++ [{ call := .accept server.m_sockFd, reply := a }])
          (.fcntl_setfl a.ret (if 0 ≤ s.timeout then O_NONBLOCK else 0)), ?_⟩
      simp [syscall, hae]
  · intro hfd
    have hn : ¬ s.m_sockFd < 0 := by omega
    unfold Stream.Connect
    rw [if_neg hn]
    exact (Stream.Connect_resolved_spec os s ipaddr port w).1
  · intro hfd
    have hcl := Socket.close_closed os s.toSocket w hfd
    unfold Stream.Connect
    rw [if_pos hfd]
    unfold Socket.create
    rw [hcl]
    by_cases hs : (os.respond w.trace (.socket AF_INET SOCK_STREAM 0)).ret < 0
    · simp [syscall, hs, socketCount_append, socketCount]
    · simp only [syscall, hs, if_false]
      rw [(Stream.Connect_resolved_spec os _ ipaddr port _).1]
      simp [socketCount_append, socketCount]
  · intro hret
    by_cases hfd : s.m_sockFd < 0
    · have hcl := Socket.close_closed os s.toSocket w hfd
      unfold Stream.Connect at hret ⊢
      rw [if_pos hfd] at hret ⊢
      unfold Socket.create at hret ⊢
      rw [hcl] at hret ⊢
      by_cases hs : (os.respond w.trace (.socket AF_INET SOCK_STREAM 0)).ret < 0
      · simp [syscall, hs] at hret
      · simp only [syscall, hs, if_false] at hret ⊢
        have hopen : 0 ≤ (os.respond w.trace (.socket AF_INET SOCK_STREAM 0)).ret := by omega
        obtain ⟨hst, pre, addr, c, r, hc, htr⟩ :=
          (Stream.Connect_resolved_spec os _ ipaddr port _).2 hret hopen
        rw [hst]
        exact ⟨rfl, hopen, pre, addr, c, r, hc, htr⟩
    · have hopen : 0 ≤ s.m_sockFd := by omega
      unfold Stream.Connect at hret ⊢
      rw [if_neg hfd] at hret ⊢
      obtain ⟨hst, pre, addr, c, r, hc, htr⟩ :=
        (Stream.Connect_resolved_spec os s ipaddr port w).2 hret hopen
      rw [hst]
      exact ⟨rfl, hopen, pre, addr, c, r, hc, htr⟩

theorem Stream.Connect_resolved_ok (os : Os) (s : Stream) (ipaddr : String) (port : Nat)
    (w : World) (h c : Reply)
    (hh : os.respond w.trace (.gethostbyname ipaddr) = h)
    (hc : os.respond (w.trace ++ [{ call := .gethostbyname ipaddr, reply := h }])
      (.connect s.m_sockFd h.data port) = c)
    (h0 : h.ret ≠ 0) (hc0 : 0 ≤ c.ret) (hfd : 0 ≤ s.m_sockFd) :
    (Stream.Connect_resolved os s ipaddr port w).1 = .ret () ∧
      (Stream.Connect_resolved os s ipaddr port w).2.1 = s ∧
      (Stream.Connect_resolved os s ipaddr port w).2.2.trace
        = w.trace ++ [{ call := .gethostbyname ipaddr, reply := h },
            { call := .connect s.m_sockFd h.data port, reply := c },
            { call := .fcntl_setfl s.m_sockFd (if 0 ≤ s.timeout then O_NONBLOCK else 0),
              reply := os.respond
                (w.trace ++ [{ call := .gethostbyname ipaddr, reply := h },
                  { call := .connect s.m_sockFd h.data port, reply := c }])
                (.fcntl_setfl s.m_sockFd (if 0 ≤ s.timeout then O_NONBLOCK else 0)) }] := by
  have hcn : ¬ c.ret < 0 := by omega
  have hres : Stream.Connect_resolved os s ipaddr port w
      = Stream.setTimeout os s s.timeout
          (syscall os (.connect s.m_sockFd h.data port)
            (syscall os (.gethostbyname ipaddr) w).2).2 := by
    simp [Stream.Connect_resolved, syscall, hh, h0, hc, hcn]
  rw [hres, Stream.setTimeout_open os s s.timeout _ hfd]
  refine ⟨rfl, rfl, ?_⟩
  simp [syscall, hh, hc]

/-- C16: `Stream::Accept` first closes the socket (an OS close on a held
descriptor), then makes the OS accept; whenever the OS accept succeeds,
`Accept` succeeds: the stream holds the accepted descriptor, the stored timeout
is unchanged, and the call after the accept is `fcntl(fd, F_SETFL, a)` on the
new descriptor with `a` non-blocking if and only if the timeout is >= 0.
`Stream::Connect` makes the OS socket call exactly when no descriptor is open;
whenever the steps it takes succeed (the socket call if one is made, the
resolution, the OS connect), `Connect` succeeds: the stored timeout is
unchanged, the stream holds the open descriptor, and the calls are (socket,)
gethostbyname, connect and then `fcntl(fd, F_SETFL, a)` with the same `a`; and
every `Connect` that succeeds ends with the OS connect followed by that
`fcntl` on the open descriptor. -/
theorem Stream.Accept_Connect_apply_timeout (os : Os) (s : Stream) (server : Socket)
    (ipaddr : String) (port : Nat) (w : World) (a h1 c1 k h2 c2 : Reply)
    (ha : os.respond (Socket.close os s.toSocket w).2.2.trace (.accept server.m_sockFd) = a)
    (hh1 : os.respond w.trace (.gethostbyname ipaddr) = h1)
    (hc1 : os.respond (w.trace ++ [{ call := .gethostbyname ipaddr, reply := h1 }])
      (.connect s.m_sockFd h1.data port) = c1)
    (hk : os.respond w.trace (.socket AF_INET SOCK_STREAM 0) = k)
    (hh2 : os.respond (w.trace ++ [{ call := .socket AF_INET SOCK_STREAM 0, reply := k }])
      (.gethostbyname ipaddr) = h2)
    (hc2 : os.respond (w.trace ++ [{ call := .socket AF_INET SOCK_STREAM 0, reply := k },
        { call := .gethostbyname ipaddr, reply := h2 }])
      (.connect k.ret h2.data port) = c2) :
    (flagsNonBlocking (if 0 ≤ s.timeout then O_NONBLOCK else 0) = true ↔ 0 ≤ s.timeout) ∧
    (0 ≤ s.m_sockFd → (Socket.close os s.toSocket w).2.2.trace
        = w.trace ++ [{ call := .close s.m_sockFd,
                        reply := os.respond w.trace (.close s.m_sockFd) }]) ∧
    (s.m_sockFd < 0 → (Socket.close os s.toSocket w).2.2.trace = w.trace) ∧
    (a.ret < 0 →
      (Stream.Accept os s server w).1.isException = true ∧
      (Stream.Accept os s server w).2.2.trace
        = (Socket.close os s.toSocket w).2.2.trace
          ++ [{ call := .accept server.m_sockFd, reply := a }]) ∧
    (0 ≤ a.ret →
      (Stream.Accept os s server w).1 = .ret () ∧
      (Stream.Accept os s server w).2.1 = { s with m_sockFd := a.ret } ∧
      (Stream.Accept os s server w).2.2.trace
        = (Socket.close os s.toSocket w).2.2.trace
          ++ [{ call := .accept server.m_sockFd, reply := a },
              { call := .fcntl_setfl a.ret (if 0 ≤ s.timeout then O_NONBLOCK else 0),
                reply := os.respond
                  ((Socket.close os s.toSocket w).2.2.trace
                    ++ [{ call := .accept server.m_sockFd, reply := a }])
                  (.fcntl_setfl a.ret (if 0 ≤ s.timeout then O_NONBLOCK else 0)) }]) ∧
    (0 ≤ s.m_sockFd →
      socketCount (Stream.Connect os s ipaddr port w).2.2.trace = socketCount w.trace) ∧
    (s.m_sockFd < 0 →
      socketCount (Stream.Connect os s ipaddr port w).2.2.trace = socketCount w.trace + 1) ∧
    (0 ≤ s.m_sockFd → h1.ret ≠ 0 → 0 ≤ c1.ret →
      (Stream.Connect os s ipaddr port w).1 = .ret () ∧
      (Stream.Connect os s ipaddr port w).2.1 = s ∧
      (Stream.Connect os s ipaddr port w).2.2.trace
        = w.trace ++ [{ call := .gethostbyname ipaddr, reply := h1 },
            { call := .connect s.m_sockFd h1.data port, reply := c1 },
            { call := .fcntl_setfl s.m_sockFd (if 0 ≤ s.timeout then O_NONBLOCK else 0),
              reply := os.respond
                (w.trace ++ [{ call := .gethostbyname ipaddr, reply := h1 },
                  { call := .connect s.m_sockFd h1.data port, reply := c1 }])
                (.fcntl_setfl s.m_sockFd (if 0 ≤ s.timeout then O_NONBLOCK else 0)) }]) ∧
    (s.m_sockFd < 0 → 0 ≤ k.ret → h2.ret ≠ 0 → 0 ≤ c2.ret →
      (Stream.Connect os s ipaddr port w).1 = .ret () ∧
      (Stream.Connect os s ipaddr port w).2.1 = { s with m_sockFd := k.ret } ∧
      (Stream.Connect os s ipaddr port w).2.2.trace
        = w.trace ++ [{ call := .socket AF_INET SOCK_STREAM 0, reply := k },
            { call := .gethostbyname ipaddr, reply := h2 },
            { call := .connect k.ret h2.data port, reply := c2 },
            { call := .fcntl_setfl k.ret (if 0 ≤ s.timeout then O_NONBLOCK else 0),
              reply := os.respond
                (w.trace ++ [{ call := .socket AF_INET SOCK_STREAM 0, reply := k },
                  { call := .gethostbyname ipaddr, reply := h2 },
                  { call := .connect k.ret h2.data port, reply := c2 }])
                (.fcntl_setfl k.ret (if 0 ≤ s.timeout then O_NONBLOCK else 0)) }]) ∧
    ((Stream.Connect os s ipaddr port w).1 = .ret () →
      (Stream.Connect os s ipaddr port w).2.1.timeout = s.timeout ∧
      0 ≤ (Stream.Connect os s ipaddr port w).2.1.m_sockFd ∧
      ∃ (pre : List Event) (addr : List Byte) (c r : Reply),
        0 ≤ c.ret ∧
        (Stream.Connect os s ipaddr port w).2.2.trace
          = pre ++ [{ call := .connect (Stream.Connect os s ipaddr port w).2.1.m_sockFd
                        addr port,
                      reply := c },
              { call := .fcntl_setfl (Stream.Connect os s ipaddr port w).2.1.m_sockFd
                  (if 0 ≤ s.timeout then O_NONBLOCK else 0),
                reply := r }]) := by
  obtain ⟨hclose, _, _, hflags, hsock0, hsock1, hconn⟩ :=
    Stream.Accept_Connect_on_success os s server ipaddr port w
  refine ⟨hflags, hclose, fun h => by rw [Socket.close_closed os s.toSocket w h], ?_, ?_,
    hsock0, hsock1, ?_, ?_, hconn⟩
  · intro hneg
    rw [Stream.Accept_eq, ha, if_pos hneg]
    exact ⟨rfl, by simp [syscall, ha]⟩
  · intro hok
    have hn : ¬ a.ret < 0 := by omega
    rw [Stream.Accept_eq, ha, if_neg hn,
      Stream.setTimeout_open os { s with m_sockFd := a.ret } s.timeout _ hok]
    refine ⟨rfl, rfl, ?_⟩
    simp [syscall, ha]
  · intro hfd h0 hc0
    have hn : ¬ s.m_sockFd < 0 := by omega
    unfold Stream.Connect
    rw [if_neg hn]
    exact Stream.Connect_resolved_ok os s ipaddr port w h1 c1 hh1 hc1 h0 hc0 hfd
  · intro hfd hk0 h0 hc0
    have hcl := Socket.close_closed os s.toSocket w hfd
    have hkn : ¬ k.ret < 0 := by omega
    have hcr : Socket.create os s.toSocket AF_INET SOCK_STREAM 0 w
        = (.ret (), { m_sockFd := k.ret },
            (syscall os (.socket AF_INET SOCK_STREAM 0) w).2) := by
      unfold Socket.create
      rw [hcl]
      simp [syscall, hk, hkn]
    have hok := Stream.Connect_resolved_ok os { s with m_sockFd := k.ret } ipaddr port
      (syscall os (.socket AF_INET SOCK_STREAM 0) w).2 h2 c2
      (by simp [syscall, hk, hh2]) (by simp [syscall, hk, hc2]) h0 hc0 hk0
    unfold Stream.Connect
    rw [if_pos hfd, hcr]
    refine ⟨hok.1, hok.2.1, ?_⟩
    rw [hok.2.2]
    simp [syscall, hk]

/-- C16, at a concrete input: a stream with timeout 100 ms.  Holding descriptor
5 it accepts a connection on the server descriptor 4: the calls are close(5),
accept(4) and `fcntl(7, F_SETFL, O_NONBLOCK)` on the accepted descriptor 7.
Holding no descriptor it connects to port 80: the calls are socket,
gethostbyname, connect and `fcntl(7, F_SETFL, O_NONBLOCK)` on the new
descriptor 7, and it returns. -/
theorem Stream.Accept_Connect_apply_timeout_witness :
    ((Stream.Accept (constOs { ret := 7, errno := 0, data := [127, 0, 0, 1] })
        { m_sockFd := 5, timeout := 100 } { m_sockFd := 4 } World.init).1 = .ret () ∧
      (Stream.Accept (constOs { ret := 7, errno := 0, data := [127, 0, 0, 1] })
        { m_sockFd := 5, timeout := 100 } { m_sockFd := 4 } World.init).2.1
        = { m_sockFd := 7, timeout := 100 }) ∧
    ((Stream.Connect (constOs { ret := 7, errno := 0, data := [127, 0, 0, 1] })
        { m_sockFd := -1, timeout := 100 } "localhost" 80 World.init).1 = .ret () ∧
      (Stream.Connect (constOs { ret := 7, errno := 0, data := [127, 0, 0, 1] })
        { m_sockFd := -1, timeout := 100 } "localhost" 80 World.init).2.1
        = { m_sockFd := 7, timeout := 100 }) ∧
    calls (Stream.Accept (constOs { ret := 7, errno := 0, data := [127, 0, 0, 1] })
        { m_sockFd := 5, timeout := 100 } { m_sockFd := 4 } World.init).2.2.trace
      = [.close 5, .accept 4, .fcntl_setfl 7 O_NONBLOCK] ∧
    calls (Stream.Connect (constOs { ret := 7, errno := 0, data := [127, 0, 0, 1] })
        { m_sockFd := -1, timeout := 100 } "localhost" 80 World.init).2.2.trace
      = [.socket AF_INET SOCK_STREAM 0, .gethostbyname "localhost",
          .connect 7 [127, 0, 0, 1] 80, .fcntl_setfl 7 O_NONBLOCK] :=
  ⟨⟨((Stream.Accept_Connect_apply_timeout
        (constOs { ret := 7, errno := 0, data := [127, 0, 0, 1] })
        { m_sockFd := 5, timeout := 100 } { m_sockFd := 4 } "localhost" 80 World.init
        { ret := 7, errno := 0, data := [127, 0, 0, 1] }
        { ret := 7, errno := 0, data := [127, 0, 0, 1] }
        { ret := 7, errno := 0, data := [127, 0, 0, 1] }
        { ret := 7, errno := 0, data := [127, 0, 0, 1] }
        { ret := 7, errno := 0, data := [127, 0, 0, 1] }
        { ret := 7, errno := 0, data := [127, 0, 0, 1] }
        rfl rfl rfl rfl rfl rfl).2.2.2.2.1 (by decide)).1,
     ((Stream.Accept_Connect_apply_timeout
        (constOs { ret := 7, errno := 0, data := [127, 0, 0, 1] })
        { m_sockFd := 5, timeout := 100 } { m_sockFd := 4 } "localhost" 80 World.init
        { ret := 7, errno := 0, data := [127, 0, 0, 1] }
        { ret := 7, errno := 0, data := [127, 0, 0, 1] }
        { ret := 7, errno := 0, data := [127, 0, 0, 1] }
        { ret := 7, errno := 0, data := [127, 0, 0, 1] }
        { ret := 7, errno := 0, data := [127, 0, 0, 1] }
        { ret := 7, errno := 0, data := [127, 0, 0, 1] }
        rfl rfl rfl rfl rfl rfl).2.2.2.2.1 (by decide)).2.1⟩,
   ⟨((Stream.Accept_Connect_apply_timeout
        (constOs { ret := 7, errno := 0, data := [127, 0, 0, 1] })
        { m_sockFd := -1, timeout := 100 } { m_sockFd := 4 } "localhost" 80 World.init
        { ret := 7, errno := 0, data := [127, 0, 0, 1] }
        { ret := 7, errno := 0, data := [127, 0, 0, 1] }
        { ret := 7, errno := 0, data := [127, 0, 0, 1] }
        { ret := 7, errno := 0, data := [127, 0, 0, 1] }
        { ret := 7, errno := 0, data := [127, 0, 0, 1] }
        { ret := 7, errno := 0, data := [127, 0, 0, 1] }
        rfl rfl rfl rfl rfl rfl).2.2.2.2.2.2.2.2.1 (by decide) (by decide) (by decide)
        (by decide)).1,
     ((Stream.Accept_Connect_apply_timeout
        (constOs { ret := 7, errno := 0, data := [127, 0, 0, 1] })
        { m_sockFd := -1, timeout := 100 } { m_sockFd := 4 } "localhost" 80 World.init
        { ret := 7, errno := 0, data := [127, 0, 0, 1] }
        { ret := 7, errno := 0, data := [127, 0, 0, 1] }
        { ret := 7, errno := 0, data := [127, 0, 0, 1] }
        { ret := 7, errno := 0, data := [127, 0, 0, 1] }
        { ret := 7, errno := 0, data := [127, 0, 0, 1] }
        { ret := 7, errno := 0, data := [127, 0, 0, 1] }
        rfl rfl rfl rfl rfl rfl).2.2.2.2.2.2.2.2.1 (by decide) (by decide) (by decide)
        (by decide)).2.1⟩,
   by decide, by decide⟩

end tcp
end cxxtools
